import Mathlib

/-!
Process table, lifecycle and signals of `proc.c`.

A shallow embedding of the process-table code of `proc.c` and the properties
proved about it.

Conventions of the embedding.

* `ptable.proc` is a list of slots; `NPROC` is its length and a slot is named
  by its index. A `for(p = ptable.proc; p < &ptable.proc[NPROC]; p++)` loop is
  a recursion over that list (or over the indices when the body touches other
  slots).
* A pointer is a `Ptr`: null, the address of a slot, or some other address.
* `uint` values are naturals kept below `2 ^ 32`; `int` values are integers.
* `p->tf` and `p->context` point into the kernel stack; the fields `tf` and
  `context` of a slot hold the *contents* of those frames.
* `cas(&x, a, b)` executed with nothing in between is: if `x = a` then
  `x := b` and the result is true, otherwise the result is false.
* What the collaborators (`kalloc`, `copyuvm`, `filedup`, `idup`) return during
  a call is an argument of the embedded function.
* Where several CPUs matter, `scheduler()`, `sleep`, `yield` and `wakeup1` are
  taken statement by statement (`step`), each `cas` and each write to a slot
  being one step of one CPU.
* `handle_user_signal` stores through the saved user `esp` in kernel mode, and
  the code does not validate that address. Its stores are taken byte by byte
  over an `AddrSpace`: a store lands in mapped user memory, faults, or lands in
  kernel memory, where it may hit the fields `signal_mask`,
  `signal_mask_backup` and `tf_backup` of the slot itself.
-/

namespace XV6

/-! ## Data model -/

/-- Modelled from the spec: `enum procstate` of `proc.h`, which is not among the
sources; the nine states of the data model, in the order of the `procdump`
table. -/
inductive procstate
  | UNUSED
  | EMBRYO
  | SLEEPING
  | NEG_SLEEPING
  | RUNNABLE
  | NEG_RUNNABLE
  | RUNNING
  | ZOMBIE
  | NEG_ZOMBIE
  deriving DecidableEq

open procstate

/-- A pointer value: `0`, `&ptable.proc[i]`, or any other address. -/
inductive Ptr
  | null
  | slot (i : Nat)
  | addr (a : Nat)
  deriving DecidableEq

/-- Modelled from the spec: `struct trapframe` of `x86.h`, which is not among the
sources: the register snapshot taken on kernel entry (padding left out). -/
structure trapframe where
  edi : Nat
  esi : Nat
  ebp : Nat
  oesp : Nat
  ebx : Nat
  edx : Nat
  ecx : Nat
  eax : Nat
  gs : Nat
  fs : Nat
  es : Nat
  ds : Nat
  trapno : Nat
  err : Nat
  eip : Nat
  cs : Nat
  eflags : Nat
  esp : Nat
  ss : Nat
  deriving DecidableEq

/-- Modelled from the spec: `struct context` of `proc.h`, which is not among the
sources: the callee-saved registers of a kernel context switch. -/
structure context where
  edi : Nat
  esi : Nat
  ebx : Nat
  ebp : Nat
  eip : Nat
  deriving DecidableEq

/-- Modelled from the spec: `struct proc` of `proc.h`, which is not among the
sources: the fields of a process slot listed in the data model, with the types
`proc.c` uses them at. -/
structure proc where
  sz : Nat
  pgdir : Nat
  kstack : Nat
  state : procstate
  pid : Int
  parent : Ptr
  tf : trapframe
  context : context
  chan : Ptr
  killed : Int
  ofile : List Nat
  cwd : Nat
  name : List Nat
  signal_handlers : List Nat
  signal_mask : Nat
  pending_signals : Nat
  sig_stopped : Int
  signal_mask_backup : Nat
  tf_backup : trapframe
  deriving DecidableEq

/-- The globals of `proc.c`: `ptable.proc`, `initproc` and `nextpid`. -/
structure Kernel where
  ptable : List proc
  initproc : Ptr
  nextpid : Int
  deriving DecidableEq

/-- Modelled from the spec: the constants of `param.h`, `proc.h` and the
trampoline of the assembly sources, none of which is among the sources.
`trampoline` is the byte string between `call_sigret_start` and
`call_sigret_end`; `forkret` is the address of that function. -/
structure Config where
  SIG_SIZE : Nat
  SIGKILL : Int
  SIGSTOP : Int
  SIGCONT : Int
  NOFILE : Nat
  forkret : Nat
  trampoline : List Nat

/-- Modelled from the spec: `SIG_DFL=0` of the constants section. -/
def SIG_DFL : Nat := 0

/-- Modelled from the spec: `SIG_IGN=1` of the constants section. -/
def SIG_IGN : Nat := 1

/-- The value of a C `int` expression after wrap-around to 32 bits. -/
def wrap32 (x : Int) : Int := (x + 2 ^ 31) % 2 ^ 32 - 2 ^ 31

/-- The `uint` a C `int` converts to. -/
def toUint (x : Int) : Nat := (x % 2 ^ 32).toNat

/-- The `uint` value of `x << n` for a shift count `0 ≤ n < 32` (C leaves other
counts undefined). -/
def shl32 (x : Nat) (n : Int) : Nat := (x <<< n.toNat) % 2 ^ 32

/-! ## kill -/

/-- The loop of `kill`: the first slot whose pid is `pid` gets the bit, unless it
is `SLEEPING` and the signal is `SIGSTOP`; `none` when the loop runs off the end
of the table. -/
def kill_scan (C : Config) (pid signum : Int) : List proc → Option (List proc)
  | [] => none
  | p :: ps =>
    if p.pid = pid then
      some ((if ¬ (p.state = SLEEPING ∧ signum = C.SIGSTOP) then
          { p with pending_signals := (p.pending_signals ||| shl32 1 signum) % 2 ^ 32 }
        else p) :: ps)
    else
      (kill_scan C pid signum ps).map (fun t => p :: t)

/-- The embedding of `kill(pid, signum)`: the return value and the globals after
the call. -/
def kill (C : Config) (k : Kernel) (pid signum : Int) : Int × Kernel :=
  if signum < 0 ∨ signum ≥ C.SIG_SIZE then (-1, k)
  else
    match kill_scan C pid signum k.ptable with
    | some t => (0, { k with ptable := t })
    | none => (-1, k)

/-! ## Table access -/

/-- Modelled from the spec: a slot of the zero-initialised `ptable` at boot:
state `UNUSED`, pid 0, null pointers, and arrays of the declared sizes
(`ofile[NOFILE]`, `name[16]`, `signal_handlers[SIG_SIZE]`). -/
def boot_proc (C : Config) : proc where
  sz := 0
  pgdir := 0
  kstack := 0
  state := UNUSED
  pid := 0
  parent := Ptr.null
  tf := ⟨0, 0, 0, 0, 0, 0, 0, 0, 0, 0, 0, 0, 0, 0, 0, 0, 0, 0, 0⟩
  context := ⟨0, 0, 0, 0, 0⟩
  chan := Ptr.null
  killed := 0
  ofile := List.replicate C.NOFILE 0
  cwd := 0
  name := List.replicate 16 0
  signal_handlers := List.replicate C.SIG_SIZE 0
  signal_mask := 0
  pending_signals := 0
  sig_stopped := 0
  signal_mask_backup := 0
  tf_backup := ⟨0, 0, 0, 0, 0, 0, 0, 0, 0, 0, 0, 0, 0, 0, 0, 0, 0, 0, 0⟩

/-- The globals at boot: `NPROC` zeroed slots, no `initproc`, `nextpid = 1`. -/
def boot (C : Config) (NPROC : Nat) : Kernel where
  ptable := List.replicate NPROC (boot_proc C)
  initproc := Ptr.null
  nextpid := 1

/-- The slot `ptable.proc[i]` (a zeroed slot for an index outside the table). -/
def slot (C : Config) (t : List proc) (i : Nat) : proc := t.getD i (boot_proc C)

/-- The table after `f` has been applied to `ptable.proc[i]`. -/
def upd (t : List proc) (i : Nat) (f : proc → proc) : List proc :=
  match t[i]? with
  | some p => t.set i (f p)
  | none => t

/-- The table after `cas(&ptable.proc[i].state, old, new)` and whether it
succeeded. -/
def cas_state (t : List proc) (i : Nat) (old new : procstate) : Bool × List proc :=
  match t[i]? with
  | some p => if p.state = old then (true, t.set i { p with state := new }) else (false, t)
  | none => (false, t)

/-! ## allocpid, allocproc -/

/-- The embedding of `allocpid()`: with nothing else writing `nextpid` the first
`cas(&nextpid, pid, pid+1)` succeeds, and the function returns `pid+1`. -/
def allocpid (k : Kernel) : Int × Kernel :=
  let pid := k.nextpid
  (wrap32 (pid + 1), { k with nextpid := wrap32 (pid + 1) })

/-- The return values of `n` successive calls of `allocpid()` starting from the
globals `k`, in program order. -/
def allocpids : Nat → Kernel → List Int
  | 0, _ => []
  | n + 1, k => (allocpid k).1 :: allocpids n (allocpid k).2

/-- The inner loop of `allocproc`: the index of the first `UNUSED` slot. -/
def find_unused : List proc → Option Nat
  | [] => none
  | p :: ps => if p.state = UNUSED then some 0 else (find_unused ps).map (fun i => i + 1)

/-- The embedding of `allocproc()`. `kalloc` is what `kalloc()` returns (`0` when
out of memory) and `fresh` the contents of the new page where the trap frame is
placed. The result is the index of the slot (`none` for the return value 0). -/
def allocproc (C : Config) (k : Kernel) (kalloc : Nat) (fresh : trapframe) :
    Option Nat × Kernel :=
  match find_unused k.ptable with
  | none => (none, k)
  | some i =>
    let k1 : Kernel := { k with ptable := upd k.ptable i (fun p => { p with state := EMBRYO }) }
    let r := allocpid k1
    let k2 : Kernel := { r.2 with ptable := upd r.2.ptable i (fun p => { p with pid := r.1 }) }
    if kalloc = 0 then
      (none, { k2 with ptable := upd k2.ptable i (fun p => { p with kstack := 0, state := UNUSED }) })
    else
      (some i, { k2 with ptable := upd k2.ptable i (fun p =>
        { p with
          kstack := kalloc
          tf := fresh
          context := ⟨0, 0, 0, 0, C.forkret⟩
          signal_handlers := List.replicate C.SIG_SIZE SIG_DFL
          signal_mask := 0
          pending_signals := 0
          sig_stopped := 0 }) })

/-! ## fork -/

/-- What the collaborators return during one call of `fork()`: `kalloc()`, the
contents of the fresh page under the trap frame, `copyuvm()` (`0` on failure),
`filedup` and `idup`. -/
structure Collab where
  kalloc : Nat
  fresh : trapframe
  copyuvm : Nat
  filedup : Nat → Nat
  idup : Nat → Nat

/-- Modelled from the spec: `safestrcpy` of `string.c`, which is not among the
sources: copies `t` into `s` as a NUL-terminated string of at most `n` bytes. -/
def safestrcpy (s t : List Nat) (n : Nat) : List Nat :=
  if n = 0 then s
  else
    let body := (t.take (n - 1)).takeWhile (fun c => c ≠ 0)
    if body.length < n - 1 then body ++ [0, 0] ++ s.drop (body.length + 2)
    else body ++ [0] ++ s.drop (body.length + 1)

/-- The embedding of `fork()` called by the process in slot `cur`: the return
value and the globals after the call, or the panic message. -/
def fork (C : Config) (k : Kernel) (cur : Nat) (x : Collab) : Except String (Int × Kernel) :=
  match allocproc C k x.kalloc x.fresh with
  | (none, k1) => .ok (-1, k1)
  | (some np, k1) =>
    if x.copyuvm = 0 then
      .ok (-1, { k1 with ptable := upd k1.ptable np (fun p =>
        { p with pgdir := 0, kstack := 0, state := UNUSED }) })
    else
      let cp := slot C k1.ptable cur
      let t2 := upd k1.ptable np (fun p =>
        { p with
          pgdir := x.copyuvm
          sz := cp.sz
          parent := Ptr.slot cur
          tf := { cp.tf with eax := 0 }
          ofile := (List.range C.NOFILE).map (fun i =>
            if cp.ofile.getD i 0 ≠ 0 then x.filedup (cp.ofile.getD i 0) else p.ofile.getD i 0)
          cwd := x.idup cp.cwd
          name := safestrcpy p.name cp.name 16
          signal_handlers := (List.range C.SIG_SIZE).map (fun i => cp.signal_handlers.getD i 0)
          signal_mask := cp.signal_mask })
      let pid := (slot C t2 np).pid
      match cas_state t2 np EMBRYO RUNNABLE with
      | (true, t3) => .ok (pid, { k1 with ptable := t3 })
      | (false, _) => .error "CAS:Fork failed."

/-! ## wakeup1, exit -/

/-- The embedding of `wakeup1(chan)`: every slot whose `chan` matches and whose
state is `SLEEPING` goes to `NEG_RUNNABLE`. -/
def wakeup1 (chan : Ptr) (t : List proc) : List proc :=
  t.map (fun p => if p.chan = chan ∧ p.state = SLEEPING then { p with state := NEG_RUNNABLE } else p)

/-- The reparenting loop of `exit()`, run on the slots `i, i+1, ..., i+n-1`. -/
def exit_loop (C : Config) (cur : Nat) (initproc : Ptr) : Nat → Nat → List proc → List proc
  | 0, _, t => t
  | n + 1, i, t =>
    let p := slot C t i
    let t1 :=
      if p.parent = Ptr.slot cur then
        let t0 := upd t i (fun q => { q with parent := initproc })
        if p.state = ZOMBIE then wakeup1 initproc t0 else t0
      else t
    exit_loop C cur initproc n (i + 1) t1

/-- The statements of `exit()` from the closing of the files to the end of the
reparenting loop, for the caller in slot `cur`: the table they leave. -/
def exit_table (C : Config) (k : Kernel) (cur : Nat) : List proc :=
  let t0 := upd k.ptable cur (fun p => { p with ofile := List.replicate C.NOFILE 0, cwd := 0 })
  let t1 := wakeup1 (slot C t0 cur).parent t0
  exit_loop C cur k.initproc t1.length 0 t1

/-- The embedding of `exit()` called by the process in slot `cur`, up to its call
of `sched()`: the globals at that point, or the panic message. -/
def exit (C : Config) (k : Kernel) (cur : Nat) : Except String Kernel :=
  if Ptr.slot cur = k.initproc then .error "init exiting"
  else
    match cas_state (exit_table C k cur) cur RUNNING NEG_ZOMBIE with
    | (true, t3) => .ok { k with ptable := t3 }
    | (false, _) => .error "CAS:Exit failed."

/-! ## wait -/

/-- The scan of `wait()` for the caller in slot `cur`: the pid and the table when
a child was reaped, and `havekids`. -/
def wait_scan (cur : Nat) : List proc → Option (Int × List proc) × Bool
  | [] => (none, false)
  | p :: ps =>
    if p.parent ≠ Ptr.slot cur then
      ((wait_scan cur ps).1.map (fun r => (r.1, p :: r.2)), (wait_scan cur ps).2)
    else if p.state = ZOMBIE then
      (some (p.pid,
        { p with state := UNUSED, kstack := 0, pid := 0, parent := Ptr.null,
                 name := p.name.set 0 0, killed := 0 } :: ps), true)
    else
      ((wait_scan cur ps).1.map (fun r => (r.1, p :: r.2)), true)

/-- How one pass of the `for(;;)` of `wait()` ends: it returns `v`, or it has
entered `sleep(curproc, &ptable.lock)` and called `sched()`, or the loop of
`sleep` spins because the caller's state is not `RUNNING`. -/
inductive wait_result
  | ret (v : Int) (k : Kernel)
  | sleeping (k : Kernel)
  | spin
  deriving DecidableEq

/-- The embedding of one pass of `wait()` called by the process in slot `cur`. -/
def wait (C : Config) (k : Kernel) (cur : Nat) : wait_result :=
  match wait_scan cur k.ptable with
  | (some r, _) => .ret r.1 { k with ptable := r.2 }
  | (none, havekids) =>
    if havekids = false ∨ (slot C k.ptable cur).killed ≠ 0 then .ret (-1) k
    else
      let t1 := upd k.ptable cur (fun p => { p with chan := Ptr.slot cur })
      match cas_state t1 cur RUNNING NEG_SLEEPING with
      | (true, t2) => .sleeping { k with ptable := t2 }
      | (false, _) => .spin

/-- The string a `char` array holds: the bytes before the first NUL. -/
def cstr (s : List Nat) : List Nat := s.takeWhile (fun c => c ≠ 0)

/-! ## scheduler -/

/-- The statements of `scheduler()` after `c->proc = 0`, for the slot `i` that
has just switched back. -/
def finalize (C : Config) (t : List proc) (i : Nat) : List proc :=
  let r1 := cas_state t i NEG_SLEEPING SLEEPING
  let t1 := if r1.1 then upd r1.2 i (fun p => { p with state := RUNNABLE }) else r1.2
  let r2 := cas_state t1 i NEG_RUNNABLE RUNNABLE
  let r3 := cas_state r2.2 i NEG_ZOMBIE ZOMBIE
  if r3.1 then wakeup1 (slot C r3.2 i).parent r3.2 else r3.2

/-! ## signal, sigret, handle_user_signal -/

/-- The embedding of `signal(signum, handler)`; `p` is `*myproc()`, the only slot
the function touches. An index outside the array reads as 0. -/
def signal (C : Config) (p : proc) (signum : Int) (handler : Nat) : Nat × proc :=
  if signum < 0 ∨ signum ≥ C.SIG_SIZE then (toUint (-2), p)
  else
    (p.signal_handlers.getD signum.toNat 0,
      { p with signal_handlers := p.signal_handlers.set signum.toNat handler })

/-- The user memory of the running process, byte by byte. -/
abbrev UMem := Nat → Nat

/-- Modelled from the spec: where a kernel-mode store through an address lands
(`memlayout.h`, `proc.h` and the page tables of the VM collaborator are not among
the sources). Addresses below `KERNBASE` are the user half, and `mapped` tells
whether the page table of the running process lets a kernel-mode store to the
address through (present and writable). Addresses from
`KERNBASE` on are kernel memory, in which the fields `signal_mask` and
`signal_mask_backup` (4 bytes each) and `tf_backup` (76 bytes) of the slot of the
running process start at the given addresses. -/
structure AddrSpace where
  KERNBASE : Nat
  mapped : Nat → Bool
  signal_mask_at : Nat
  signal_mask_backup_at : Nat
  tf_backup_at : Nat

/-- Why a store gives no state of the embedding: `fault a`, a page fault in kernel
mode (`a` is in the user half and not mapped); `kernel a`, a store into kernel
memory outside the three fields of `AddrSpace`, whose effect depends on what lies
at `a`. -/
inductive store_stop
  | fault (a : Nat)
  | kernel (a : Nat)
  deriving DecidableEq

/-- The 32-bit word `w` with its byte number `k` replaced by `v`. -/
def set_byte (w k v : Nat) : Nat := w - w / 256 ^ k % 256 * 256 ^ k + v % 256 * 256 ^ k

/-- The trap frame with the byte at offset `o` replaced by `v`, for the layout of
`struct trapframe` (19 words; the upper half of the words of the 16-bit segment
registers is padding). -/
def tf_set_byte (tf : trapframe) (o v : Nat) : trapframe :=
  match o / 4 with
  | 0 => { tf with edi := set_byte tf.edi (o % 4) v }
  | 1 => { tf with esi := set_byte tf.esi (o % 4) v }
  | 2 => { tf with ebp := set_byte tf.ebp (o % 4) v }
  | 3 => { tf with oesp := set_byte tf.oesp (o % 4) v }
  | 4 => { tf with ebx := set_byte tf.ebx (o % 4) v }
  | 5 => { tf with edx := set_byte tf.edx (o % 4) v }
  | 6 => { tf with ecx := set_byte tf.ecx (o % 4) v }
  | 7 => { tf with eax := set_byte tf.eax (o % 4) v }
  | 8 => if o % 4 < 2 then { tf with gs := set_byte tf.gs (o % 4) v } else tf
  | 9 => if o % 4 < 2 then { tf with fs := set_byte tf.fs (o % 4) v } else tf
  | 10 => if o % 4 < 2 then { tf with es := set_byte tf.es (o % 4) v } else tf
  | 11 => if o % 4 < 2 then { tf with ds := set_byte tf.ds (o % 4) v } else tf
  | 12 => { tf with trapno := set_byte tf.trapno (o % 4) v }
  | 13 => { tf with err := set_byte tf.err (o % 4) v }
  | 14 => { tf with eip := set_byte tf.eip (o % 4) v }
  | 15 => if o % 4 < 2 then { tf with cs := set_byte tf.cs (o % 4) v } else tf
  | 16 => { tf with eflags := set_byte tf.eflags (o % 4) v }
  | 17 => { tf with esp := set_byte tf.esp (o % 4) v }
  | 18 => if o % 4 < 2 then { tf with ss := set_byte tf.ss (o % 4) v } else tf
  | _ => tf

/-- A kernel-mode store of the byte `v` at address `a`: into the user memory when
`a` is a mapped user address, into the field of the slot that lies at `a`, or no
state (see `store_stop`). -/
def store_byte (A : AddrSpace) (s : proc × UMem) (a v : Nat) : Except store_stop (proc × UMem) :=
  if a < A.KERNBASE then
    if A.mapped a = true then .ok (s.1, fun x => if x = a then v % 256 else s.2 x)
    else .error (.fault a)
  else if A.signal_mask_at ≤ a ∧ a < A.signal_mask_at + 4 then
    .ok ({ s.1 with signal_mask := set_byte s.1.signal_mask (a - A.signal_mask_at) v }, s.2)
  else if A.signal_mask_backup_at ≤ a ∧ a < A.signal_mask_backup_at + 4 then
    .ok ({ s.1 with
            signal_mask_backup :=
              set_byte s.1.signal_mask_backup (a - A.signal_mask_backup_at) v }, s.2)
  else if A.tf_backup_at ≤ a ∧ a < A.tf_backup_at + 76 then
    .ok ({ s.1 with tf_backup := tf_set_byte s.1.tf_backup (a - A.tf_backup_at) v }, s.2)
  else .error (.kernel a)

/-- The state after `memmove((void*)dst, bytes, len)` executed by the kernel, byte
by byte in ascending order (addresses wrap at `2 ^ 32`). -/
def memmove_to (A : AddrSpace) : proc × UMem → Nat → List Nat → Except store_stop (proc × UMem)
  | s, _, [] => .ok s
  | s, dst, v :: vs =>
    match store_byte A s (dst % 2 ^ 32) v with
    | .error e => .error e
    | .ok s1 => memmove_to A s1 (dst + 1) vs

/-- The state after `*((int*)dst) = v` executed by the kernel (little endian). -/
def store32 (A : AddrSpace) (s : proc × UMem) (dst : Nat) (v : Nat) :
    Except store_stop (proc × UMem) :=
  memmove_to A s dst [v % 256, v / 256 % 256, v / 65536 % 256, v / 16777216 % 256]

/-- The entry `p->signal_handlers[signum]` (0 for an index outside the array,
which C leaves undefined). -/
def handler_at (p : proc) (signum : Int) : Nat :=
  if 0 ≤ signum then p.signal_handlers.getD signum.toNat 0 else 0

/-- The `uint` difference `a - b`. -/
def sub32 (a b : Nat) : Nat := (a + 2 ^ 32 - b % 2 ^ 32) % 2 ^ 32

/-- The embedding of `handle_user_signal(p, signum)`: the slot and the user memory
after the call. The stores of lines 647-649 go through the saved user stack
pointer `p->tf->esp`, which the code does not validate: they are kernel-mode
stores that land wherever that address points (`store_byte`). -/
def handle_user_signal (C : Config) (A : AddrSpace) (p : proc) (signum : Int) (m : UMem) :
    Except store_stop (proc × UMem) :=
  let handler := handler_at p signum
  let p1 : proc := { p with signal_mask_backup := p.signal_mask }
  let p2 : proc := { p1 with tf_backup := p1.tf }
  let p3 : proc := { p2 with signal_mask := 0xffffffff }
  let p4 : proc := { p3 with tf := { p3.tf with esp := sub32 p3.tf.esp C.trampoline.length } }
  match memmove_to A (p4, m) p4.tf.esp C.trampoline with
  | .error e => .error e
  | .ok s1 =>
    match store32 A s1 (sub32 s1.1.tf.esp 4) (toUint signum) with
    | .error e => .error e
    | .ok s2 =>
      match store32 A s2 (sub32 s2.1.tf.esp 8) s2.1.tf.esp with
      | .error e => .error e
      | .ok s3 =>
        .ok ({ s3.1 with tf := { s3.1.tf with esp := sub32 s3.1.tf.esp 8, eip := handler } },
          s3.2)

/-- The address is a mapped address of the user half. -/
def in_user (A : AddrSpace) (a : Nat) : Prop := a < A.KERNBASE ∧ A.mapped a = true

/-- The address is a kernel address inside the field `signal_mask` of the slot. -/
def hits_mask (A : AddrSpace) (a : Nat) : Prop :=
  A.KERNBASE ≤ a ∧ A.signal_mask_at ≤ a ∧ a < A.signal_mask_at + 4

/-- The address is a kernel address inside `signal_mask_backup` or `tf_backup`. -/
def hits_backup (A : AddrSpace) (a : Nat) : Prop :=
  A.KERNBASE ≤ a ∧
    ((A.signal_mask_backup_at ≤ a ∧ a < A.signal_mask_backup_at + 4) ∨
      (A.tf_backup_at ≤ a ∧ a < A.tf_backup_at + 76))

instance (A : AddrSpace) (a : Nat) : Decidable (in_user A a) := by
  unfold in_user
  infer_instance

instance (A : AddrSpace) (a : Nat) : Decidable (hits_mask A a) := by
  unfold hits_mask
  infer_instance

instance (A : AddrSpace) (a : Nat) : Decidable (hits_backup A a) := by
  unfold hits_backup
  infer_instance

/-- The embedding of `sigprocmask(sig_mask)`; `p` is `*myproc()`, the only slot
the function touches. -/
def sigprocmask (p : proc) (sig_mask : Nat) : Nat × proc :=
  (p.signal_mask, { p with signal_mask := sig_mask })

/-- The embedding of `is_masked(mask, signum)`. -/
def is_masked (mask : Nat) (signum : Int) : Bool :=
  decide (shl32 1 signum &&& mask = shl32 1 signum)

/-- The embedding of `is_signal_pending(pending_signals, signum)`. -/
def is_signal_pending (pending_signals : Nat) (signum : Int) : Bool :=
  decide (shl32 1 signum &&& pending_signals = shl32 1 signum)

/-- The embedding of `handle_kernel_signal(p, signum)`. -/
def handle_kernel_signal (C : Config) (p : proc) (signum : Int) : proc :=
  if signum = C.SIGSTOP then { p with sig_stopped := 1 }
  else if signum = C.SIGCONT then { p with sig_stopped := 0 }
  else { p with killed := 1 }

/-- The `for` loop of `handle_signals` run on the signums `i, i+1, ..., i+n-1`:
the slot, the user memory, and (last component, a record kept for the proofs)
the signums for which `handle_user_signal` was called, in order; the loop stops
where a store of `handle_user_signal` stops. -/
def deliver_loop (C : Config) (A : AddrSpace) :
    Nat → Nat → proc → UMem → List Nat → Except store_stop (proc × UMem × List Nat)
  | 0, _, p, m, l => .ok (p, m, l)
  | n + 1, i, p, m, l =>
    if handler_at p i = SIG_IGN ∨ is_masked p.signal_mask i = true ∨
        is_signal_pending p.pending_signals i = false then
      deliver_loop C A n (i + 1) p m l
    else if handler_at p i = SIG_DFL then
      deliver_loop C A n (i + 1)
        { handle_kernel_signal C p i with
          pending_signals := (handle_kernel_signal C p i).pending_signals &&&
            (4294967295 ^^^ shl32 1 i) }
        m l
    else
      match handle_user_signal C A p i m with
      | .error e => .error e
      | .ok r =>
        deliver_loop C A n (i + 1)
          { r.1 with pending_signals := r.1.pending_signals &&& (4294967295 ^^^ shl32 1 i) }
          r.2 (l ++ [i])

/-- The body of the `do ... while` of `handle_signals`: whether it called
`yield()`, the slot, the user memory and the signums staged. -/
def handle_signals_body (C : Config) (A : AddrSpace) (p : proc) (m : UMem) :
    Except store_stop (Bool × proc × UMem × List Nat) :=
  if p.sig_stopped ≠ 0 ∧ is_signal_pending p.pending_signals C.SIGCONT = false then
    .ok (true, p, m, [])
  else
    match deliver_loop C A C.SIG_SIZE 0 p m [] with
    | .error e => .error e
    | .ok r => .ok (false, r)

/-- The `do ... while(curproc->sig_stopped)` of `handle_signals`, run for at most
`fuel` iterations. `env k` holds the bits that `kill` on other CPUs sets in
`pending_signals` during iteration `k` (for instance while the process has
yielded). The result is `none` while the loop is still running. -/
def handle_signals_loop (C : Config) (A : AddrSpace) (env : Nat → Nat) :
    Nat → Nat → proc → UMem → List Nat → Except store_stop (Option (proc × UMem) × List Nat)
  | 0, _, _, _, l => .ok (none, l)
  | fuel + 1, k, p, m, l =>
    match handle_signals_body C A p m with
    | .error e => .error e
    | .ok r =>
      let p1 : proc :=
        { r.2.1 with pending_signals := (r.2.1.pending_signals ||| env k) % 2 ^ 32 }
      if p1.sig_stopped ≠ 0 then
        handle_signals_loop C A env fuel (k + 1) p1 r.2.2.1 (l ++ r.2.2.2)
      else .ok (some (p1, r.2.2.1), l ++ r.2.2.2)

/-- The embedding of `handle_signals(tf)` for the current process `p` (the case
`curproc == 0` has no slot to act on). `DPL_USER` is the constant of `mmu.h`,
which is not among the sources. -/
def handle_signals (C : Config) (A : AddrSpace) (DPL_USER : Nat) (env : Nat → Nat) (fuel : Nat)
    (tf : trapframe) (p : proc) (m : UMem) :
    Except store_stop (Option (proc × UMem) × List Nat) :=
  if tf.cs &&& 3 ≠ DPL_USER then .ok (some (p, m), [])
  else handle_signals_loop C A env fuel 0 p m []

/-- The delivery pass for signum `i` in the words of the specification, for a
process whose dispositions are `SIG_DFL` or `SIG_IGN`: when `i` is pending in
`p0`, not masked and not ignored, the kernel default is applied to `q` and bit `i`
of `pending_signals` is cleared; otherwise `q` is left as it is. -/
def default_delivery (C : Config) (p0 : proc) (q : proc) (i : Nat) : proc :=
  if p0.pending_signals.testBit i = true ∧ p0.signal_mask.testBit i = false ∧
      handler_at p0 i ≠ SIG_IGN then
    if (i : Int) = C.SIGSTOP then
      { q with sig_stopped := 1, pending_signals := q.pending_signals &&& (4294967295 ^^^ 2 ^ i) }
    else if (i : Int) = C.SIGCONT then
      { q with sig_stopped := 0, pending_signals := q.pending_signals &&& (4294967295 ^^^ 2 ^ i) }
    else
      { q with killed := 1, pending_signals := q.pending_signals &&& (4294967295 ^^^ 2 ^ i) }
  else q

/-! ## userinit -/

/-- What the collaborators return during `userinit()` (`kalloc`, the contents of
the fresh page under the trap frame, `setupkvm`, `namei`) and the constants of
`mmu.h` it uses, which is not among the sources. -/
structure InitEnv where
  kalloc : Nat
  fresh : trapframe
  setupkvm : Nat
  namei : Nat
  PGSIZE : Nat
  SEG_UCODE : Nat
  SEG_UDATA : Nat
  DPL_USER : Nat
  FL_IF : Nat

/-- The embedding of `userinit()`: the globals after the call, or the message of
the panic (a null `allocproc` result is dereferenced). -/
def userinit (C : Config) (k : Kernel) (e : InitEnv) : Except String Kernel :=
  match allocproc C k e.kalloc e.fresh with
  | (none, _) => .error "userinit: no process"
  | (some i, k1) =>
    if e.setupkvm = 0 then .error "userinit: out of memory?"
    else
      let t2 := upd k1.ptable i (fun p =>
        { p with
          pgdir := e.setupkvm
          sz := e.PGSIZE
          tf := { edi := 0, esi := 0, ebp := 0, oesp := 0, ebx := 0, edx := 0, ecx := 0,
                  eax := 0, gs := 0, fs := 0,
                  es := (e.SEG_UDATA <<< 3) ||| e.DPL_USER,
                  ds := (e.SEG_UDATA <<< 3) ||| e.DPL_USER,
                  trapno := 0, err := 0, eip := 0,
                  cs := (e.SEG_UCODE <<< 3) ||| e.DPL_USER,
                  eflags := e.FL_IF, esp := e.PGSIZE,
                  ss := (e.SEG_UDATA <<< 3) ||| e.DPL_USER }
          name := safestrcpy p.name [105, 110, 105, 116, 99, 111, 100, 101, 0] 16
          cwd := e.namei })
      match cas_state t2 i EMBRYO RUNNABLE with
      | (true, t3) => .ok { k1 with ptable := t3, initproc := Ptr.slot i }
      | (false, _) => .error "CAS:User init failed."

/-! ## CPUs: the scheduler and the running process, statement by statement -/

/-- Where a CPU is: at a statement of the loop body of `scheduler()` for its loop
variable `p`, or in the process it has switched to.

* `pick`: at `cas(&(p->state), RUNNABLE, RUNNING)`;
* `bind`: at `c->proc = p`, followed by the switch into the process;
* `user`: the process runs, outside the functions below;
* `in_sleep chan`: the process is in the loop of `sleep(chan, lk)`;
* `waking chan j`: the process is in `wakeup1(chan)` (called by `wakeup`), at slot `j`;
* `leaving`: the process has written its `NEG_` state and is in `sched()`, before
  `swtch` has returned to the scheduler;
* `clear`: at `c->proc = 0`;
* `fin1`: at `cas(&p->state, NEG_SLEEPING, SLEEPING)`; `fin1w`: at `p->state = RUNNABLE`;
* `fin2`: at `cas(&p->state, NEG_RUNNABLE, RUNNABLE)`;
* `fin3`: at `cas(&p->state, NEG_ZOMBIE, ZOMBIE)`; `fin3w chan j`: in the
  `wakeup1(p->parent)` that follows, at slot `j`;
* `next`: at `p++`, or at the restart of the table scan after the last slot;
* `panicked`: after `panic`. -/
inductive position
  | pick
  | bind
  | user
  | in_sleep (chan : Ptr)
  | waking (chan : Ptr) (j : Nat)
  | leaving
  | clear
  | fin1
  | fin1w
  | fin2
  | fin3
  | fin3w (chan : Ptr) (j : Nat)
  | next
  | panicked
  deriving DecidableEq

/-- Modelled from the spec: `struct cpu` of `proc.h`, which is not among the
sources: the current-process pointer `proc`; with it, the loop variable `p` of the
CPU's `scheduler()` and the position of the CPU in the code. -/
structure cpu where
  proc : Ptr
  p : Nat
  pos : position
  deriving DecidableEq

/-- The process table and the CPUs. -/
structure Sys where
  ptable : List proc
  cpus : List cpu
  deriving DecidableEq

/-- What the running process does next when it is outside the loops of `sleep`
and `wakeup1`: it calls `yield()`, `sleep(chan, lk)` or `wakeup(chan)`, or, back
from the `sched()` of `sleep`, it executes `p->chan = 0`. -/
inductive action
  | yield
  | sleep (chan : Ptr)
  | wakeup (chan : Ptr)
  | tidy
  deriving DecidableEq

/-- The body of the loop of `wakeup1(chan)` for slot `j`. -/
def wakeup1_slot (chan : Ptr) (t : List proc) (j : Nat) : List proc :=
  upd t j (fun p =>
    if p.chan = chan ∧ p.state = SLEEPING then { p with state := NEG_RUNNABLE } else p)

/-- One statement executed by CPU `c`. `a` is what the process does when the CPU
is at `user`; it plays no role elsewhere. -/
def step (s : Sys) (c : Nat) (a : action) : Sys :=
  match s.cpus[c]? with
  | none => s
  | some x =>
    match x.pos with
    | .pick =>
      if (cas_state s.ptable x.p RUNNABLE RUNNING).1 then
        { ptable := (cas_state s.ptable x.p RUNNABLE RUNNING).2
          cpus := s.cpus.set c { x with pos := .bind } }
      else { s with cpus := s.cpus.set c { x with pos := .next } }
    | .bind => { s with cpus := s.cpus.set c { x with proc := Ptr.slot x.p, pos := .user } }
    | .user =>
      match a with
      | .yield =>
        if (cas_state s.ptable x.p RUNNING NEG_RUNNABLE).1 then
          { ptable := (cas_state s.ptable x.p RUNNING NEG_RUNNABLE).2
            cpus := s.cpus.set c { x with pos := .leaving } }
        else { s with cpus := s.cpus.set c { x with pos := .panicked } }
      | .sleep chan => { s with cpus := s.cpus.set c { x with pos := .in_sleep chan } }
      | .wakeup chan => { s with cpus := s.cpus.set c { x with pos := .waking chan 0 } }
      | .tidy => { s with ptable := upd s.ptable x.p (fun q => { q with chan := Ptr.null }) }
    | .in_sleep chan =>
      if (cas_state (upd s.ptable x.p (fun q => { q with chan := chan })) x.p
          RUNNING NEG_SLEEPING).1 then
        { ptable := (cas_state (upd s.ptable x.p (fun q => { q with chan := chan })) x.p
            RUNNING NEG_SLEEPING).2
          cpus := s.cpus.set c { x with pos := .leaving } }
      else { s with ptable := upd s.ptable x.p (fun q => { q with chan := chan }) }
    | .waking chan j =>
      if j < s.ptable.length then
        { ptable := wakeup1_slot chan s.ptable j
          cpus := s.cpus.set c { x with pos := .waking chan (j + 1) } }
      else { s with cpus := s.cpus.set c { x with pos := .user } }
    | .leaving => { s with cpus := s.cpus.set c { x with pos := .clear } }
    | .clear => { s with cpus := s.cpus.set c { x with proc := Ptr.null, pos := .fin1 } }
    | .fin1 =>
      if (cas_state s.ptable x.p NEG_SLEEPING SLEEPING).1 then
        { ptable := (cas_state s.ptable x.p NEG_SLEEPING SLEEPING).2
          cpus := s.cpus.set c { x with pos := .fin1w } }
      else { s with cpus := s.cpus.set c { x with pos := .fin2 } }
    | .fin1w =>
      { ptable := upd s.ptable x.p (fun q => { q with state := RUNNABLE })
        cpus := s.cpus.set c { x with pos := .fin2 } }
    | .fin2 =>
      { ptable := (cas_state s.ptable x.p NEG_RUNNABLE RUNNABLE).2
        cpus := s.cpus.set c { x with pos := .fin3 } }
    | .fin3 =>
      if (cas_state s.ptable x.p NEG_ZOMBIE ZOMBIE).1 then
        { ptable := (cas_state s.ptable x.p NEG_ZOMBIE ZOMBIE).2
          cpus := s.cpus.set c
            { x with pos := .fin3w ((s.ptable[x.p]?).elim Ptr.null proc.parent) 0 } }
      else { s with cpus := s.cpus.set c { x with pos := .next } }
    | .fin3w chan j =>
      if j < s.ptable.length then
        { ptable := wakeup1_slot chan s.ptable j
          cpus := s.cpus.set c { x with pos := .fin3w chan (j + 1) } }
      else { s with cpus := s.cpus.set c { x with pos := .next } }
    | .next =>
      { s with
        cpus := s.cpus.set c
          ({ x with p := if x.p + 1 < s.ptable.length then x.p + 1 else 0, pos := .pick }) }
    | .panicked => s

/-- The system after the CPUs have executed one statement each in the order of
the schedule. -/
def run (s : Sys) : List (Nat × action) → Sys
  | [] => s
  | ca :: rest => run (step s ca.1 ca.2) rest

/-- The number of CPUs whose `proc` is slot `i`. -/
def cpus_on (s : Sys) (i : Nat) : Nat :=
  (s.cpus.filter (fun x => decide (x.proc = Ptr.slot i))).length

/-- The invariant of the specification: a slot in `RUNNING` is the `proc` of at
most one CPU. -/
def one_cpu_per_running_slot (s : Sys) : Prop :=
  ∀ i, i < s.ptable.length → (s.ptable[i]?).map proc.state = some RUNNING → cpus_on s i ≤ 1

instance (s : Sys) : Decidable (one_cpu_per_running_slot s) := by
  unfold one_cpu_per_running_slot
  infer_instance

/-- The race between the scheduler that finishes the switch of a sleeper (CPU 0,
from `leaving` to `next`) and a process that runs `wakeup1` (CPU 1, until it is
back at `user`): one statement of CPU `c`, unless that CPU has finished its part. -/
def race_step (s : Sys) (c : Nat) : Sys :=
  match s.cpus[c]? with
  | none => s
  | some x => if x.pos = .next ∨ x.pos = .user then s else step s c .yield

/-- The race run in the order of the schedule. -/
def race (s : Sys) : List Nat → Sys
  | [] => s
  | c :: rest => race (race_step s c) rest

/-- An instance of the constants, used to evaluate the definitions on concrete
tables: 32 signals, `SIGKILL = 9`, `SIGSTOP = 17`, `SIGCONT = 19`, 16 open
files, a two-byte trampoline. -/
def cfg : Config where
  SIG_SIZE := 32
  SIGKILL := 9
  SIGSTOP := 17
  SIGCONT := 19
  NOFILE := 16
  forkret := 2148545536
  trampoline := [205, 64]

/-- A slot in use, for concrete tables: a zeroed slot with the given pid, state
and parent. -/
def live (C : Config) (pid : Int) (st : procstate) (parent : Ptr) : proc :=
  { boot_proc C with pid := pid, state := st, parent := parent }

/-- The caller of the concrete runs: pid 3, running, child of slot 0, with a
handler installed for signal 5, signal 2 masked and signal 9 pending. -/
def demo_caller : proc :=
  { live cfg 3 RUNNING (Ptr.slot 0) with
    signal_handlers := (List.replicate 32 0).set 5 4096
    signal_mask := 4
    pending_signals := 512 }

/-- A concrete table of six slots: init (pid 2) sleeping in `wait`, its running
child `demo_caller` in slot 1, two zombie children and one runnable child of
slot 1, and a free slot that still holds a pending bit. -/
def demo : Kernel where
  ptable :=
    [{ live cfg 2 SLEEPING Ptr.null with chan := Ptr.slot 0 },
     demo_caller,
     live cfg 4 ZOMBIE (Ptr.slot 1),
     live cfg 5 ZOMBIE (Ptr.slot 1),
     live cfg 6 RUNNABLE (Ptr.slot 1),
     { boot_proc cfg with pending_signals := 8 }]
  initproc := Ptr.slot 0
  nextpid := 6

/-- The slot a successful `fork` leaves behind, built from the old contents `p`
of the slot and the caller's slot `cp`. -/
def fork_child (C : Config) (k : Kernel) (x : Collab) (cur : Nat) (p cp : proc) : proc :=
  { p with
    state := RUNNABLE
    pid := wrap32 (k.nextpid + 1)
    kstack := x.kalloc
    tf := { cp.tf with eax := 0 }
    context := ⟨0, 0, 0, 0, C.forkret⟩
    pgdir := x.copyuvm
    sz := cp.sz
    parent := Ptr.slot cur
    ofile := (List.range C.NOFILE).map (fun i =>
      if cp.ofile.getD i 0 ≠ 0 then x.filedup (cp.ofile.getD i 0) else p.ofile.getD i 0)
    cwd := x.idup cp.cwd
    name := safestrcpy p.name cp.name 16
    signal_handlers := (List.range C.SIG_SIZE).map (fun i => cp.signal_handlers.getD i 0)
    signal_mask := cp.signal_mask
    pending_signals := 0
    sig_stopped := 0 }

/-- What the collaborators return in the concrete runs of `fork`. -/
def demo_collab : Collab where
  kalloc := 2382364672
  fresh := ⟨1, 1, 1, 1, 1, 1, 1, 1, 1, 1, 1, 1, 1, 1, 1, 1, 1, 1, 1⟩
  copyuvm := 2382368768
  filedup := fun f => f
  idup := fun ip => ip

/-- The concrete table with its free slot taken: no slot is `UNUSED`. -/
def demo_full : Kernel :=
  { demo with ptable := demo.ptable.set 5 (live cfg 7 RUNNABLE (Ptr.slot 0)) }

/-- The concrete table with the `killed` flag of the caller in slot 1 set. -/
def demo_killed : Kernel :=
  { demo with ptable := demo.ptable.set 1 { demo_caller with killed := 1 } }

/-- A slot with default and ignored dispositions only: signals 3, 5, 9 and 17 are
pending, signal 5 is masked and signal 3 is ignored. -/
def demo_signalled : proc :=
  { live cfg 3 RUNNING (Ptr.slot 0) with
    signal_handlers := (List.replicate 32 0).set 3 1
    signal_mask := 32
    pending_signals := 131624 }

/-- A stopped slot with no signal pending, trapped from user mode (`cs = 0x1B`). -/
def demo_stopped : proc :=
  { live cfg 3 RUNNING (Ptr.slot 0) with
    sig_stopped := 1
    tf := { (boot_proc cfg).tf with cs := 27 } }

/-- What the collaborators return in the concrete run of `userinit`, and the
`mmu.h` constants of the x86 port. -/
def demo_init_env : InitEnv where
  kalloc := 2382360576
  fresh := ⟨1, 1, 1, 1, 1, 1, 1, 1, 1, 1, 1, 1, 1, 1, 1, 1, 1, 1, 1⟩
  setupkvm := 2382356480
  namei := 2148606016
  PGSIZE := 4096
  SEG_UCODE := 3
  SEG_UDATA := 4
  DPL_USER := 3
  FL_IF := 512

/-- Two CPUs entering `scheduler()` (`c->proc = 0`, first slot of the scan) after
`userinit()` on the boot-time table of 64 slots. -/
def boot_sys : Sys :=
  match userinit cfg (boot cfg 64) demo_init_env with
  | .ok k => ⟨k.ptable, [⟨Ptr.null, 0, .pick⟩, ⟨Ptr.null, 0, .pick⟩]⟩
  | .error _ => ⟨[], []⟩

/-- A schedule of the two CPUs. CPU 0 picks the first process, which calls
`sleep`; CPU 0 takes it through `NEG_SLEEPING`, `SLEEPING` and the write of
`RUNNABLE`. CPU 1 then picks the process, which returns from `sleep`, calls
`yield` and is still in `sched()` when CPU 0 executes its
`cas(&p->state, NEG_RUNNABLE, RUNNABLE)`, scans the rest of the table and picks
the process again. -/
def race_schedule : List (Nat × action) :=
  [(0, .yield), (0, .yield), (0, .sleep (Ptr.addr 1)), (0, .yield), (0, .yield), (0, .yield),
   (0, .yield), (0, .yield),
   (1, .yield), (1, .yield), (1, .tidy), (1, .yield),
   (0, .yield), (0, .yield)] ++ List.replicate 129 (0, .yield)

/-- The start of the race: the sleeper in slot `i` has performed its
`cas(&p->state, RUNNING, NEG_SLEEPING)` on CPU 0 and is in `sched()`; the process
in slot `w` on CPU 1 enters `wakeup1(chan)`. -/
def race_start (t : List proc) (i w : Nat) (chan : Ptr) : Sys where
  ptable := t
  cpus := [⟨Ptr.slot i, i, .leaving⟩, ⟨Ptr.slot w, w, .waking chan 0⟩]

/-- The states the sleeper's slot can be in during the race, by the position of
CPU 0. -/
def race_inv (pos : position) (st : procstate) : Prop :=
  match pos with
  | .leaving => st = NEG_SLEEPING
  | .clear => st = NEG_SLEEPING
  | .fin1 => st = NEG_SLEEPING
  | .fin1w => st = SLEEPING ∨ st = NEG_RUNNABLE
  | .fin2 => st = RUNNABLE
  | .fin3 => st = RUNNABLE
  | .next => st = RUNNABLE
  | _ => False

/-- The number of statements CPU 0 has executed since the start of the race. -/
def race_rank : position → Nat
  | .clear => 1
  | .fin1 => 2
  | .fin1w => 3
  | .fin2 => 4
  | .fin3 => 5
  | .next => 6
  | _ => 0

/-- The invariant of the race after `n` statements of CPU 0 and `m` statements of
CPU 1, for the sleeper in slot `i` and a table of `len` slots. -/
def race_invariant (i : Nat) (chan : Ptr) (len n m : Nat) (s : Sys) : Prop :=
  ∃ x0 x1 q, s.cpus = [x0, x1] ∧ x0.p = i ∧ race_rank x0.pos = min n 6 ∧
    s.ptable[i]? = some q ∧ race_inv x0.pos q.state ∧ s.ptable.length = len ∧
    ((m ≤ len ∧ x1.pos = .waking chan m) ∨ (len < m ∧ x1.pos = .user))

/-- A table of two slots: a process that has just performed the CAS of
`sleep(chan, lk)` on channel `Ptr.addr 1`, and a running process. -/
def demo_sleeper_table : List proc :=
  [{ live cfg 3 NEG_SLEEPING Ptr.null with chan := Ptr.addr 1 }, live cfg 4 RUNNING (Ptr.slot 0)]

/-- A concrete address space: `KERNBASE = 0x80000000`, four pages of user memory
mapped, and the slot of the running process in kernel memory with `tf_backup`,
`signal_mask` and `signal_mask_backup` next to each other. -/
def demo_space : AddrSpace where
  KERNBASE := 2147483648
  mapped := fun a => decide (a < 16384)
  tf_backup_at := 2148606000
  signal_mask_at := 2148606076
  signal_mask_backup_at := 2148606080

theorem upd_of_get {t : List proc} {i : Nat} {p : proc} (f : proc → proc)
    (h : t[i]? = some p) : upd t i f = t.set i (f p) := by
  simp [upd, h]

theorem cas_state_hit {t : List proc} {i : Nat} {p : proc} (old new : procstate)
    (h : t[i]? = some p) (hs : p.state = old) :
    cas_state t i old new = (true, t.set i { p with state := new }) := by
  simp [cas_state, h, hs]

theorem cas_state_miss {t : List proc} {i : Nat} {p : proc} (old new : procstate)
    (h : t[i]? = some p) (hs : p.state ≠ old) :
    cas_state t i old new = (false, t) := by
  simp [cas_state, h, hs]

theorem slot_of_get {C : Config} {t : List proc} {i : Nat} {p : proc}
    (h : t[i]? = some p) : slot C t i = p := by
  simp [slot, List.getD, h]

theorem get_of_lt (C : Config) (t : List proc) (i : Nat) (h : i < t.length) :
    t[i]? = some (slot C t i) := by
  simp [slot, List.getD, List.getElem?_eq_getElem h]

theorem get_set_self {t : List proc} {i : Nat} {p : proc} (a : proc)
    (h : t[i]? = some p) : (t.set i a)[i]? = some a := by
  have hi : i < t.length := by
    by_contra hc
    rw [List.getElem?_eq_none (by omega)] at h
    cases h
  simp [List.getElem?_set_self hi]

theorem lt_of_get {t : List proc} {i : Nat} {p : proc} (h : t[i]? = some p) :
    i < t.length := by
  by_contra hc
  rw [List.getElem?_eq_none (by omega)] at h
  cases h

theorem upd_set {t : List proc} {i : Nat} {p : proc} (a : proc) (f : proc → proc)
    (h : t[i]? = some p) : upd (t.set i a) i f = t.set i (f a) := by
  rw [upd_of_get f (get_set_self a h), List.set_set]

theorem slot_set_ne (C : Config) (t : List proc) (i j : Nat) (a : proc) (h : i ≠ j) :
    slot C (t.set i a) j = slot C t j := by
  simp [slot, List.getD, List.getElem?_set_ne h]

theorem slot_set_self (C : Config) {t : List proc} {i : Nat} {p : proc} (a : proc)
    (h : t[i]? = some p) : slot C (t.set i a) i = a :=
  slot_of_get (get_set_self a h)

theorem wrap32_id (x : Int) (h0 : -2 ^ 31 ≤ x) (h1 : x < 2 ^ 31) : wrap32 x = x := by
  unfold wrap32
  omega

/-! ### kill -/

/-- Helper: what the loop of `kill` does when some slot holds the pid. -/
theorem kill_scan_found (C : Config) (pid signum : Int) (t : List proc)
    (h : ∃ p ∈ t, p.pid = pid) :
    ∃ i p, t[i]? = some p ∧ p.pid = pid ∧
      (∀ j q, j < i → t[j]? = some q → q.pid ≠ pid) ∧
      kill_scan C pid signum t = some (t.set i
        (if ¬ (p.state = SLEEPING ∧ signum = C.SIGSTOP) then
          { p with pending_signals := (p.pending_signals ||| shl32 1 signum) % 2 ^ 32 }
        else p)) := by
  induction t with
  | nil => simp at h
  | cons a ps ih =>
    by_cases ha : a.pid = pid
    · refine ⟨0, a, by simp, ha, ?_, ?_⟩
      · intro j q hj; omega
      · simp [kill_scan, ha]
    · have h' : ∃ p ∈ ps, p.pid = pid := by
        obtain ⟨p, hp, hpid⟩ := h
        rcases List.mem_cons.mp hp with rfl | hp
        · exact absurd hpid ha
        · exact ⟨p, hp, hpid⟩
      obtain ⟨i, p, hi, hp, hlow, hk⟩ := ih h'
      refine ⟨i + 1, p, by simpa using hi, hp, ?_, ?_⟩
      · intro j q hj hq
        cases j with
        | zero =>
          simp at hq
          subst hq
          exact ha
        | succ j =>
          simp at hq
          exact hlow j q (by omega) hq
      · simp [kill_scan, ha, hk]

theorem shl32_one (n : Int) (h0 : 0 ≤ n) (h1 : n < 32) : shl32 1 n = 2 ^ n.toNat := by
  have hn : n.toNat < 32 := by omega
  unfold shl32
  rw [Nat.one_shiftLeft]
  exact Nat.mod_eq_of_lt (Nat.pow_lt_pow_right (by norm_num) hn)

theorem set_bit_testBit (old n b : Nat) (hb : b < 32) :
    ((old ||| 2 ^ n) % 2 ^ 32).testBit b = (old.testBit b || decide (b = n)) := by
  rw [Nat.testBit_mod_two_pow, Nat.testBit_or, Nat.testBit_two_pow]
  simp [hb, eq_comm]

/-- C1: for a valid signum (with `SIG_SIZE ≤ 32`) and a pid held by some slot,
`kill(pid, signum)` returns 0 and the table differs from the old one only in the
`pending_signals` field of the lowest-index slot holding that pid: the field is
left as it was when the slot is `SLEEPING` and the signal is `SIGSTOP`, and is
otherwise the old value with bit `signum` set. `initproc` and `nextpid` are
unchanged. -/
theorem kill_sets_pending_bit (C : Config) (k : Kernel) (pid signum : Int)
    (h0 : 0 ≤ signum) (h1 : signum < C.SIG_SIZE) (h32 : C.SIG_SIZE ≤ 32)
    (hpid : ∃ p ∈ k.ptable, p.pid = pid) :
    ∃ i p v, k.ptable[i]? = some p ∧ p.pid = pid ∧
      (∀ j q, j < i → k.ptable[j]? = some q → q.pid ≠ pid) ∧
      kill C k pid signum =
        (0, { k with ptable := k.ptable.set i { p with pending_signals := v } }) ∧
      (p.state = SLEEPING ∧ signum = C.SIGSTOP → v = p.pending_signals) ∧
      (¬ (p.state = SLEEPING ∧ signum = C.SIGSTOP) →
        v = (p.pending_signals ||| 2 ^ signum.toNat) % 2 ^ 32 ∧
        ∀ b, b < 32 → v.testBit b = (p.pending_signals.testBit b || decide (b = signum.toNat))) := by
  obtain ⟨i, p, hi, hp, hlow, hk⟩ := kill_scan_found C pid signum k.ptable hpid
  have hs32 : signum < 32 := by
    have : (C.SIG_SIZE : Int) ≤ 32 := by exact_mod_cast h32
    omega
  have hguard : ¬ (signum < 0 ∨ signum ≥ (C.SIG_SIZE : Int)) := by omega
  by_cases hc : p.state = SLEEPING ∧ signum = C.SIGSTOP
  · refine ⟨i, p, p.pending_signals, hi, hp, hlow, ?_, fun _ => rfl, fun hn => absurd hc hn⟩
    simp only [kill, hguard, if_false, hk, if_neg (not_not.mpr hc)]
  · refine ⟨i, p, (p.pending_signals ||| 2 ^ signum.toNat) % 2 ^ 32, hi, hp, hlow, ?_,
      fun hn => absurd hn hc, fun _ => ⟨rfl, fun b hb => set_bit_testBit _ _ b hb⟩⟩
    simp only [kill, hguard, if_false, hk]
    simp [hc, shl32_one signum h0 hs32]


/-- Witness of C1 on the concrete table: `kill(3, SIGKILL)` returns 0. -/
theorem kill_sets_pending_bit_witness :
    (0 : Int) ≤ 9 ∧ (9 : Int) < cfg.SIG_SIZE ∧ cfg.SIG_SIZE ≤ 32 ∧
      (∃ p ∈ demo.ptable, p.pid = 3) ∧ (kill cfg demo 3 9).1 = 0 := by
  have hp : ∃ p ∈ demo.ptable, p.pid = 3 :=
    ⟨demo_caller, by simp [demo], rfl⟩
  refine ⟨by decide, by decide, by decide, hp, ?_⟩
  obtain ⟨i, p, v, _, _, _, hk, _⟩ :=
    kill_sets_pending_bit cfg demo 3 9 (by decide) (by decide) (by decide) hp
  rw [hk]


/-! ### wait -/

/-- Helper: the scan of `wait` reaps the first zombie child of the caller. -/
theorem wait_scan_found (cur : Nat) (t : List proc)
    (h : ∃ p ∈ t, p.parent = Ptr.slot cur ∧ p.state = ZOMBIE) :
    ∃ i p, t[i]? = some p ∧ p.parent = Ptr.slot cur ∧ p.state = ZOMBIE ∧
      (∀ j q, j < i → t[j]? = some q → ¬ (q.parent = Ptr.slot cur ∧ q.state = ZOMBIE)) ∧
      (wait_scan cur t).1 = some (p.pid, t.set i
        { p with state := UNUSED, kstack := 0, pid := 0, parent := Ptr.null,
                 name := p.name.set 0 0, killed := 0 }) := by
  induction t with
  | nil => simp at h
  | cons a ps ih =>
    by_cases ha : a.parent = Ptr.slot cur ∧ a.state = ZOMBIE
    · refine ⟨0, a, by simp, ha.1, ha.2, ?_, ?_⟩
      · intro j q hj; omega
      · simp [wait_scan, ha.1, ha.2]
    · have h' : ∃ p ∈ ps, p.parent = Ptr.slot cur ∧ p.state = ZOMBIE := by
        obtain ⟨p, hp, hz⟩ := h
        rcases List.mem_cons.mp hp with rfl | hp
        · exact absurd hz ha
        · exact ⟨p, hp, hz⟩
      obtain ⟨i, p, hi, hpar, hst, hlow, hk⟩ := ih h'
      refine ⟨i + 1, p, by simpa using hi, hpar, hst, ?_, ?_⟩
      · intro j q hj hq
        cases j with
        | zero =>
          simp at hq
          subst hq
          exact ha
        | succ j =>
          simp at hq
          exact hlow j q (by omega) hq
      · by_cases hpa : a.parent = Ptr.slot cur
        · have hz : a.state ≠ ZOMBIE := fun hz => ha ⟨hpa, hz⟩
          simp [wait_scan, hpa, hz, hk]
        · simp [wait_scan, hpa, hk]

theorem cstr_set_zero (s : List Nat) : cstr (s.set 0 0) = [] := by
  cases s <;> simp [cstr]

/-- C2: when some slot is a `ZOMBIE` child of the caller, one pass of `wait()`
returns the pid of the lowest-index such slot, and the table afterwards differs
only in that slot, which is `UNUSED` with pid 0, a null parent, `killed` 0, an
empty name and a null `kstack`. -/
theorem wait_reaps_first_zombie (C : Config) (k : Kernel) (cur : Nat)
    (h : ∃ p ∈ k.ptable, p.parent = Ptr.slot cur ∧ p.state = ZOMBIE) :
    ∃ i p q, k.ptable[i]? = some p ∧ p.parent = Ptr.slot cur ∧ p.state = ZOMBIE ∧
      (∀ j r, j < i → k.ptable[j]? = some r → ¬ (r.parent = Ptr.slot cur ∧ r.state = ZOMBIE)) ∧
      wait C k cur = wait_result.ret p.pid { k with ptable := k.ptable.set i q } ∧
      q.state = UNUSED ∧ q.pid = 0 ∧ q.parent = Ptr.null ∧ q.killed = 0 ∧
      cstr q.name = [] ∧ q.kstack = 0 := by
  obtain ⟨i, p, hi, hpar, hst, hlow, hk⟩ := wait_scan_found cur k.ptable h
  refine ⟨i, p, { p with state := UNUSED, kstack := 0, pid := 0, parent := Ptr.null,
                         name := p.name.set 0 0, killed := 0 },
    hi, hpar, hst, hlow, ?_, rfl, rfl, rfl, rfl, cstr_set_zero _, rfl⟩
  unfold wait
  split
  · rename_i r b heq
    rw [heq] at hk
    simp only [Option.some.injEq] at hk
    subst hk
    rfl
  · rename_i b heq
    rw [heq] at hk
    cases hk

/-- Witness of C2 on the concrete table: the caller in slot 1 reaps pid 4. -/
theorem wait_reaps_first_zombie_witness :
    (∃ p ∈ demo.ptable, p.parent = Ptr.slot 1 ∧ p.state = ZOMBIE) ∧
      ∃ k, wait cfg demo 1 = wait_result.ret 4 k := by
  have hp : ∃ p ∈ demo.ptable, p.parent = Ptr.slot 1 ∧ p.state = ZOMBIE :=
    ⟨live cfg 4 ZOMBIE (Ptr.slot 1), by simp [demo], rfl, rfl⟩
  refine ⟨hp, ?_⟩
  obtain ⟨i, p, q, hi, hpar, hst, hlow, hw, _⟩ := wait_reaps_first_zombie cfg demo 1 hp
  have h2 : demo.ptable[2]? = some (live cfg 4 ZOMBIE (Ptr.slot 1)) := rfl
  have hi2 : i = 2 := by
    rcases Nat.lt_trichotomy i 2 with hlt | heq | hgt
    · exfalso
      have : i = 0 ∨ i = 1 := by omega
      rcases this with rfl | rfl
      · simp [demo, live] at hi
        subst hi
        simp at hpar
      · simp [demo, live, demo_caller] at hi
        subst hi
        simp at hst
    · exact heq
    · exact absurd ⟨rfl, rfl⟩ (hlow 2 _ hgt h2)
  subst hi2
  rw [h2] at hi
  simp only [Option.some.injEq] at hi
  subst hi
  exact ⟨_, hw⟩


/-! ### allocproc, fork -/

theorem find_unused_spec (t : List proc) (i : Nat) (h : find_unused t = some i) :
    ∃ p, t[i]? = some p ∧ p.state = UNUSED ∧
      ∀ j q, j < i → t[j]? = some q → q.state ≠ UNUSED := by
  induction t generalizing i with
  | nil => simp [find_unused] at h
  | cons a ps ih =>
    by_cases ha : a.state = UNUSED
    · simp [find_unused, ha] at h
      subst h
      exact ⟨a, by simp, ha, fun j q hj => by omega⟩
    · simp only [find_unused, ha, if_false, Option.map_eq_some'] at h
      obtain ⟨i0, hi0, rfl⟩ := h
      obtain ⟨p, hp, hs, hlow⟩ := ih i0 hi0
      refine ⟨p, by simpa using hp, hs, ?_⟩
      intro j q hj hq
      cases j with
      | zero =>
        simp at hq
        subst hq
        exact ha
      | succ j =>
        simp at hq
        exact hlow j q (by omega) hq

/-- The slot `allocproc` hands out, built from the old contents `p` of the slot. -/
theorem allocproc_ok (C : Config) (k : Kernel) (kalloc : Nat) (fresh : trapframe)
    (i : Nat) (p : proc) (hf : find_unused k.ptable = some i) (hp : k.ptable[i]? = some p)
    (hk : kalloc ≠ 0) :
    allocproc C k kalloc fresh =
      (some i,
        { ptable := k.ptable.set i
            { p with
              state := EMBRYO
              pid := wrap32 (k.nextpid + 1)
              kstack := kalloc
              tf := fresh
              context := ⟨0, 0, 0, 0, C.forkret⟩
              signal_handlers := List.replicate C.SIG_SIZE SIG_DFL
              signal_mask := 0
              pending_signals := 0
              sig_stopped := 0 }
          initproc := k.initproc
          nextpid := wrap32 (k.nextpid + 1) }) := by
  simp only [allocproc, hf, allocpid, upd_of_get _ hp, upd_set _ _ hp, hk, if_false]


theorem fork_ok (C : Config) (k : Kernel) (cur : Nat) (x : Collab) (i : Nat)
    (hcur : (slot C k.ptable cur).state ≠ UNUSED)
    (hf : find_unused k.ptable = some i) (hk : x.kalloc ≠ 0) (hc : x.copyuvm ≠ 0) :
    ∃ p, k.ptable[i]? = some p ∧ p.state = UNUSED ∧ i ≠ cur ∧
      fork C k cur x = .ok (wrap32 (k.nextpid + 1),
        { ptable := k.ptable.set i (fork_child C k x cur p (slot C k.ptable cur))
          initproc := k.initproc
          nextpid := wrap32 (k.nextpid + 1) }) := by
  obtain ⟨p, hp, hs, _⟩ := find_unused_spec k.ptable i hf
  have hne : i ≠ cur := by
    rintro rfl
    exact hcur (by rw [slot_of_get hp]; exact hs)
  refine ⟨p, hp, hs, hne, ?_⟩
  simp only [fork, allocproc_ok C k x.kalloc x.fresh i p hf hp hk, hc, if_false,
    slot_set_ne C k.ptable i cur _ hne, upd_set _ _ hp, slot_set_self C _ hp]
  rw [cas_state_hit EMBRYO RUNNABLE (get_set_self _ hp) rfl, List.set_set]
  rfl


/-- C3: when the caller is a live process, `allocproc` finds the free slot `i`,
`kalloc` and `copyuvm` succeed and `nextpid ≥ 1` does not wrap, `fork()` returns
the pid stored in slot `i`, that pid is positive, the trap frame of slot `i` is
the caller's with `eax = 0`, its parent is the caller and its state is
`RUNNABLE`. -/
theorem fork_returns_child_pid (C : Config) (k : Kernel) (cur : Nat) (x : Collab) (i : Nat)
    (hcur : (slot C k.ptable cur).state ≠ UNUSED)
    (hf : find_unused k.ptable = some i) (hk : x.kalloc ≠ 0) (hc : x.copyuvm ≠ 0)
    (hn1 : 1 ≤ k.nextpid) (hn2 : k.nextpid + 1 < 2 ^ 31) :
    ∃ pid k', fork C k cur x = .ok (pid, k') ∧
      pid = (slot C k'.ptable i).pid ∧ 0 < pid ∧
      (slot C k'.ptable i).tf = { (slot C k.ptable cur).tf with eax := 0 } ∧
      (slot C k'.ptable i).parent = Ptr.slot cur ∧
      (slot C k'.ptable i).state = RUNNABLE := by
  obtain ⟨p, hp, _, _, hfork⟩ := fork_ok C k cur x i hcur hf hk hc
  refine ⟨_, _, hfork, ?_, ?_, ?_, ?_, ?_⟩
  · simp only [slot_set_self C _ hp]
    rfl
  · rw [wrap32_id _ (by omega) (by omega)]
    omega
  · simp only [slot_set_self C _ hp]
    rfl
  · simp only [slot_set_self C _ hp]
    rfl
  · simp only [slot_set_self C _ hp]
    rfl

/-- Witness of C3 on the concrete table: the caller in slot 1 forks into slot 5. -/
theorem fork_returns_child_pid_witness :
    ((slot cfg demo.ptable 1).state ≠ UNUSED ∧ find_unused demo.ptable = some 5 ∧
      demo_collab.kalloc ≠ 0 ∧ demo_collab.copyuvm ≠ 0 ∧ 1 ≤ demo.nextpid ∧
      demo.nextpid + 1 < 2 ^ 31) ∧
    ∃ pid k', fork cfg demo 1 demo_collab = .ok (pid, k') ∧
      pid = (slot cfg k'.ptable 5).pid ∧ 0 < pid ∧
      (slot cfg k'.ptable 5).tf = { (slot cfg demo.ptable 1).tf with eax := 0 } ∧
      (slot cfg k'.ptable 5).parent = Ptr.slot 1 ∧
      (slot cfg k'.ptable 5).state = RUNNABLE :=
  ⟨⟨by decide, by decide, by decide, by decide, by decide, by decide⟩,
    fork_returns_child_pid cfg demo 1 demo_collab 5 (by decide) (by decide) (by decide)
      (by decide) (by decide) (by decide)⟩

/-- C4: after a successful `fork()` the child's handler for every signum below
`SIG_SIZE` is the parent's, its `signal_mask` is the parent's, and its
`pending_signals` is 0 whatever the parent and the reused slot held. -/
theorem fork_inherits_signals (C : Config) (k : Kernel) (cur : Nat) (x : Collab) (i : Nat)
    (hcur : (slot C k.ptable cur).state ≠ UNUSED)
    (hf : find_unused k.ptable = some i) (hk : x.kalloc ≠ 0) (hc : x.copyuvm ≠ 0) :
    ∃ pid k', fork C k cur x = .ok (pid, k') ∧
      (∀ s, s < C.SIG_SIZE → (slot C k'.ptable i).signal_handlers[s]? =
        some ((slot C k.ptable cur).signal_handlers.getD s 0)) ∧
      ((slot C k.ptable cur).signal_handlers.length = C.SIG_SIZE →
        (slot C k'.ptable i).signal_handlers = (slot C k.ptable cur).signal_handlers) ∧
      (slot C k'.ptable i).signal_mask = (slot C k.ptable cur).signal_mask ∧
      (slot C k'.ptable i).pending_signals = 0 := by
  obtain ⟨p, hp, _, _, hfork⟩ := fork_ok C k cur x i hcur hf hk hc
  refine ⟨_, _, hfork, ?_, ?_, ?_, ?_⟩
  · intro s hs
    simp only [slot_set_self C _ hp, fork_child]
    simp [hs]
  · intro hlen
    simp only [slot_set_self C _ hp, fork_child]
    apply List.ext_getElem?
    intro n
    by_cases hn : n < C.SIG_SIZE
    · have hn' : n < (slot C k.ptable cur).signal_handlers.length := by omega
      simp [hn, List.getD, List.getElem?_eq_getElem hn']
    · have hn' : (slot C k.ptable cur).signal_handlers.length ≤ n := by omega
      simp [hn, List.getElem?_eq_none hn']
      omega
  · simp only [slot_set_self C _ hp]
    rfl
  · simp only [slot_set_self C _ hp]
    rfl

/-- Witness of C4 on the concrete table, where the caller has a pending signal
and a handler installed. -/
theorem fork_inherits_signals_witness :
    ((slot cfg demo.ptable 1).state ≠ UNUSED ∧ find_unused demo.ptable = some 5 ∧
      demo_collab.kalloc ≠ 0 ∧ demo_collab.copyuvm ≠ 0) ∧
    ∃ pid k', fork cfg demo 1 demo_collab = .ok (pid, k') ∧
      (∀ s, s < cfg.SIG_SIZE → (slot cfg k'.ptable 5).signal_handlers[s]? =
        some ((slot cfg demo.ptable 1).signal_handlers.getD s 0)) ∧
      ((slot cfg demo.ptable 1).signal_handlers.length = cfg.SIG_SIZE →
        (slot cfg k'.ptable 5).signal_handlers = (slot cfg demo.ptable 1).signal_handlers) ∧
      (slot cfg k'.ptable 5).signal_mask = (slot cfg demo.ptable 1).signal_mask ∧
      (slot cfg k'.ptable 5).pending_signals = 0 :=
  ⟨⟨by decide, by decide, by decide, by decide⟩,
    fork_inherits_signals cfg demo 1 demo_collab 5 (by decide) (by decide) (by decide)
      (by decide)⟩


/-! ### exit -/

theorem get_upd (t : List proc) (i j : Nat) (f : proc → proc) :
    (upd t i f)[j]? = if j = i then (t[j]?).map f else t[j]? := by
  unfold upd
  by_cases hji : j = i
  · subst hji
    cases ht : t[j]? with
    | none => simp [ht]
    | some p => simp [ht, get_set_self (f p) ht]
  · cases ht : t[i]? with
    | none => simp [hji]
    | some p => simp [hji, List.getElem?_set_ne (Ne.symm hji)]

theorem get_wakeup1 (chan : Ptr) (t : List proc) (j : Nat) :
    (wakeup1 chan t)[j]? = (t[j]?).map (fun p =>
      if p.chan = chan ∧ p.state = SLEEPING then { p with state := NEG_RUNNABLE } else p) := by
  simp [wakeup1, List.getElem?_map]

theorem parent_wakeup1 (chan : Ptr) (t : List proc) (j : Nat) :
    ((wakeup1 chan t)[j]?).map proc.parent = (t[j]?).map proc.parent := by
  rw [get_wakeup1]
  cases t[j]? with
  | none => rfl
  | some p =>
    simp only [Option.map_some']
    split <;> rfl

theorem running_wakeup1 (chan : Ptr) (t : List proc) (j : Nat)
    (h : (t[j]?).map proc.state = some RUNNING) :
    ((wakeup1 chan t)[j]?).map proc.state = some RUNNING := by
  rw [get_wakeup1]
  cases ht : t[j]? with
  | none => simp [ht] at h
  | some p =>
    simp only [ht, Option.map_some', Option.some.injEq] at h
    simp [h]

/-- One step of the reparenting loop of `exit`, as a map on parent pointers. -/
theorem parent_exit_step (C : Config) (cur : Nat) (initproc : Ptr) (i j : Nat) (t : List proc) :
    ((if (slot C t i).parent = Ptr.slot cur then
        (if (slot C t i).state = ZOMBIE then
          wakeup1 initproc (upd t i (fun q => { q with parent := initproc }))
        else upd t i (fun q => { q with parent := initproc }))
      else t)[j]?).map proc.parent =
    ((t[j]?).map proc.parent).map (fun x => if j = i ∧ x = Ptr.slot cur then initproc else x) := by
  by_cases hp : (slot C t i).parent = Ptr.slot cur
  · have key : ((upd t i (fun q => { q with parent := initproc }))[j]?).map proc.parent =
        ((t[j]?).map proc.parent).map
          (fun x => if j = i ∧ x = Ptr.slot cur then initproc else x) := by
      rw [get_upd]
      by_cases hji : j = i
      · subst hji
        cases ht : t[j]? with
        | none => simp
        | some p =>
          rw [slot_of_get ht] at hp
          simp [hp]
      · cases ht : t[j]? <;> simp [hji]
    simp only [hp, if_true]
    split
    · rw [parent_wakeup1]
      exact key
    · exact key
  · simp only [hp, if_false]
    cases ht : t[j]? with
    | none => simp
    | some p =>
      by_cases hji : j = i
      · subst hji
        rw [slot_of_get ht] at hp
        simp [hp]
      · simp [hji]

theorem parent_exit_loop (C : Config) (cur : Nat) (initproc : Ptr) (n i j : Nat) (t : List proc) :
    ((exit_loop C cur initproc n i t)[j]?).map proc.parent =
    ((t[j]?).map proc.parent).map
      (fun x => if (i ≤ j ∧ j < i + n) ∧ x = Ptr.slot cur then initproc else x) := by
  induction n generalizing i t with
  | zero =>
    have h0 : ¬ (i ≤ j ∧ j < i + 0) := by omega
    simp only [exit_loop, h0, false_and, if_false]
    cases t[j]? <;> rfl
  | succ n ih =>
    simp only [exit_loop]
    rw [ih, parent_exit_step]
    cases t[j]? with
    | none => rfl
    | some p =>
      simp only [Option.map_some', Option.some.injEq]
      by_cases hji : j = i
      · subst hji
        have h1 : ¬ (j + 1 ≤ j ∧ j < j + 1 + n) := by omega
        have h2 : j ≤ j ∧ j < j + (n + 1) := by omega
        simp [h1, h2]
      · by_cases hr : i + 1 ≤ j ∧ j < i + 1 + n
        · have h2 : i ≤ j ∧ j < i + (n + 1) := by omega
          simp [hji, hr, h2]
        · have h2 : ¬ (i ≤ j ∧ j < i + (n + 1)) := by omega
          simp [hji, hr, h2]


theorem field_upd {α : Type} (g : proc → α) (t : List proc) (i j : Nat) (f : proc → proc)
    (hf : ∀ p, g (f p) = g p) : ((upd t i f)[j]?).map g = (t[j]?).map g := by
  rw [get_upd]
  by_cases hji : j = i
  · simp only [hji, if_true]
    cases t[i]? <;> simp [hf]
  · simp [hji]

theorem length_upd (t : List proc) (i : Nat) (f : proc → proc) :
    (upd t i f).length = t.length := by
  unfold upd
  cases t[i]? <;> simp

theorem length_wakeup1 (chan : Ptr) (t : List proc) : (wakeup1 chan t).length = t.length := by
  simp [wakeup1]

theorem running_exit_loop (C : Config) (cur : Nat) (initproc : Ptr) (n i j : Nat) (t : List proc)
    (h : (t[j]?).map proc.state = some RUNNING) :
    ((exit_loop C cur initproc n i t)[j]?).map proc.state = some RUNNING := by
  induction n generalizing i t with
  | zero => simpa [exit_loop] using h
  | succ n ih =>
    simp only [exit_loop]
    apply ih
    have hu : ((upd t i (fun q => { q with parent := initproc }))[j]?).map proc.state =
        some RUNNING := by
      rw [field_upd proc.state]
      · exact h
      · intro _; rfl
    split
    · split
      · exact running_wakeup1 _ _ _ hu
      · exact hu
    · exact h

theorem parent_exit_table (C : Config) (k : Kernel) (cur j : Nat) :
    ((exit_table C k cur)[j]?).map proc.parent =
      ((k.ptable[j]?).map proc.parent).map
        (fun x => if x = Ptr.slot cur then k.initproc else x) := by
  unfold exit_table
  simp only
  rw [parent_exit_loop, parent_wakeup1, field_upd proc.parent, length_wakeup1, length_upd]
  · cases hj : k.ptable[j]? with
    | none => rfl
    | some p =>
      have hlt : j < k.ptable.length := lt_of_get hj
      simp [hlt]
  · intro _; rfl

theorem running_exit_table (C : Config) (k : Kernel) (cur j : Nat)
    (h : (k.ptable[j]?).map proc.state = some RUNNING) :
    ((exit_table C k cur)[j]?).map proc.state = some RUNNING := by
  unfold exit_table
  simp only
  apply running_exit_loop
  apply running_wakeup1
  rw [field_upd proc.state]
  · exact h
  · intro _; rfl

/-- The parent pointers in the table `exit` has built when it calls `sched()`. -/
theorem parent_exit (C : Config) (k k' : Kernel) (cur : Nat) (h : exit C k cur = .ok k')
    (j : Nat) : (k'.ptable[j]?).map proc.parent =
      ((k.ptable[j]?).map proc.parent).map
        (fun x => if x = Ptr.slot cur then k.initproc else x) := by
  have key : (k'.ptable[j]?).map proc.parent = ((exit_table C k cur)[j]?).map proc.parent := by
    unfold exit at h
    by_cases hi : Ptr.slot cur = k.initproc
    · simp [hi] at h
    · simp only [hi, if_false] at h
      unfold cas_state at h
      cases hc : (exit_table C k cur)[cur]? with
      | none => simp [hc] at h
      | some p =>
        simp only [hc] at h
        by_cases hs : p.state = RUNNING
        · simp only [hs, if_true, Except.ok.injEq] at h
          subst h
          simp only
          rw [← upd_of_get (fun q => { q with state := NEG_ZOMBIE }) hc, field_upd proc.parent]
          intro _; rfl
        · simp [hs] at h
  rw [key, parent_exit_table]

/-- C5: `exit()` called by a running process other than `initproc` reaches
`sched()`, and whenever it does, every slot whose parent was the caller has
`initproc` as its parent and every other slot has the parent it had. -/
theorem exit_reparents_children (C : Config) (k : Kernel) (cur : Nat) :
    (Ptr.slot cur ≠ k.initproc → (slot C k.ptable cur).state = RUNNING →
      ∃ k', exit C k cur = .ok k') ∧
    (∀ k' : Kernel, exit C k cur = .ok k' → Ptr.slot cur ≠ k.initproc ∧
      ∀ (j : Nat) (p : proc), k.ptable[j]? = some p → ∃ q : proc, k'.ptable[j]? = some q ∧
        (p.parent = Ptr.slot cur → q.parent = k.initproc) ∧
        (p.parent ≠ Ptr.slot cur → q.parent = p.parent)) := by
  constructor
  · intro hi hrun
    have hlt : cur < k.ptable.length := by
      by_contra hc
      have : k.ptable[cur]? = none := List.getElem?_eq_none (by omega)
      simp [slot, List.getD, this, boot_proc] at hrun
    have hget := get_of_lt C k.ptable cur hlt
    have h0 : (k.ptable[cur]?).map proc.state = some RUNNING := by simp [hget, hrun]
    have h1 := running_exit_table C k cur cur h0
    unfold exit
    simp only [hi, if_false]
    cases hc : (exit_table C k cur)[cur]? with
    | none => simp [hc] at h1
    | some p =>
      simp only [hc, Option.map_some', Option.some.injEq] at h1
      rw [cas_state_hit RUNNING NEG_ZOMBIE hc h1]
      exact ⟨_, rfl⟩
  · intro k' h
    refine ⟨?_, ?_⟩
    · intro hi
      simp [exit, hi] at h
    · intro j p hp
      have hpar := parent_exit C k k' cur h j
      rw [hp] at hpar
      cases hq : k'.ptable[j]? with
      | none => simp [hq] at hpar
      | some q =>
        simp only [hq, Option.map_some', Option.some.injEq] at hpar
        refine ⟨q, rfl, ?_, ?_⟩
        · intro hpc
          simp [hpar, hpc]
        · intro hpc
          simp [hpar, hpc]

/-- Witness of C5 on the concrete table: the caller in slot 1 exits and its
zombie child in slot 2 is handed to init. -/
theorem exit_reparents_children_witness :
    Ptr.slot 1 ≠ demo.initproc ∧ (slot cfg demo.ptable 1).state = RUNNING ∧
      ∃ k' : Kernel, exit cfg demo 1 = .ok k' ∧
        ∃ q : proc, k'.ptable[2]? = some q ∧ q.parent = demo.initproc := by
  have h := exit_reparents_children cfg demo 1
  obtain ⟨k', hk'⟩ := h.1 (by decide) (by decide)
  obtain ⟨_, hall⟩ := h.2 k' hk'
  obtain ⟨q, hq, h1, _⟩ := hall 2 (live cfg 4 ZOMBIE (Ptr.slot 1)) rfl
  exact ⟨by decide, by decide, k', hk', q, hq, h1 rfl⟩

/-! ### scheduler -/

/-- C6: the finalization of `scheduler()` run on a one-slot table: a slot left in
`NEG_RUNNABLE` ends `RUNNABLE` and a slot left in `NEG_ZOMBIE` ends `ZOMBIE`, but
a slot left in `NEG_SLEEPING` ends `RUNNABLE`, not `SLEEPING`. -/
theorem finalize_neg_sleeping_ends_runnable :
    finalize cfg [live cfg 3 NEG_RUNNABLE Ptr.null] 0 = [live cfg 3 RUNNABLE Ptr.null] ∧
    finalize cfg [live cfg 3 NEG_ZOMBIE Ptr.null] 0 = [live cfg 3 ZOMBIE Ptr.null] ∧
    finalize cfg [live cfg 3 NEG_SLEEPING Ptr.null] 0 = [live cfg 3 RUNNABLE Ptr.null] ∧
    (slot cfg (finalize cfg [live cfg 3 NEG_SLEEPING Ptr.null] 0) 0).state ≠ SLEEPING := by
  refine ⟨by decide, by decide, by decide, by decide⟩

/-! ### The pid of a free slot -/

/-- C7: every slot of the boot-time table is `UNUSED` with pid 0, yet one
`allocproc()` from it in which `kalloc` fails leaves slot 0 `UNUSED` with pid 2;
and on the concrete table a `fork()` in which `copyuvm` fails returns -1 and
leaves slot 5 `UNUSED` with pid 7. -/
theorem unused_slot_keeps_pid :
    (∀ p ∈ (boot cfg 64).ptable, p.state = UNUSED ∧ p.pid = 0) ∧
    (allocproc cfg (boot cfg 64) 0 demo_collab.fresh).1 = none ∧
    (slot cfg (allocproc cfg (boot cfg 64) 0 demo_collab.fresh).2.ptable 0).state = UNUSED ∧
    (slot cfg (allocproc cfg (boot cfg 64) 0 demo_collab.fresh).2.ptable 0).pid = 2 ∧
    (∃ k', fork cfg demo 1 { demo_collab with copyuvm := 0 } = .ok (-1, k') ∧
      (slot cfg k'.ptable 5).state = UNUSED ∧ (slot cfg k'.ptable 5).pid = 7) := by
  refine ⟨?_, by decide, by decide, by decide, _, rfl, by decide, by decide⟩
  intro p hp
  obtain ⟨_, rfl⟩ := List.mem_replicate.mp hp
  exact ⟨rfl, rfl⟩


/-! ### allocpid -/

theorem allocpids_increasing (n : Nat) (k : Kernel) (h1 : 1 ≤ k.nextpid)
    (h2 : k.nextpid + n < 2 ^ 31) :
    (∀ p ∈ allocpids n k, k.nextpid < p) ∧ (allocpids n k).Pairwise (fun a b => a < b) := by
  induction n generalizing k with
  | zero => simp [allocpids]
  | succ n ih =>
    have hw : wrap32 (k.nextpid + 1) = k.nextpid + 1 :=
      wrap32_id _ (by omega) (by push_cast at h2; omega)
    have hnext : (allocpid k).2.nextpid = k.nextpid + 1 := by simp [allocpid, hw]
    have hret : (allocpid k).1 = k.nextpid + 1 := by simp [allocpid, hw]
    obtain ⟨hgt, hpw⟩ := ih (allocpid k).2 (by rw [hnext]; omega)
      (by rw [hnext]; push_cast at h2; omega)
    rw [hnext] at hgt
    simp only [allocpids, List.mem_cons, List.pairwise_cons, hret]
    refine ⟨?_, ?_, hpw⟩
    · rintro p (rfl | hp)
      · omega
      · have := hgt p hp
        omega
    · intro p hp
      exact hgt p hp

theorem length_allocpids (n : Nat) (k : Kernel) : (allocpids n k).length = n := by
  induction n generalizing k with
  | zero => rfl
  | succ n ih => simp [allocpids, ih]

/-- C8: from any `nextpid ≥ 1`, as long as the counter stays below `2 ^ 31`, the
values returned by `n` successive calls of `allocpid()` are strictly increasing
in program order, pairwise distinct and positive. -/
theorem allocpid_strictly_increasing (k : Kernel) (n : Nat) (h1 : 1 ≤ k.nextpid)
    (h2 : k.nextpid + n < 2 ^ 31) :
    (allocpids n k).length = n ∧
    (allocpids n k).Pairwise (fun a b => a < b) ∧
    (allocpids n k).Nodup ∧
    ∀ p ∈ allocpids n k, 0 < p := by
  obtain ⟨hgt, hpw⟩ := allocpids_increasing n k h1 h2
  refine ⟨length_allocpids n k, hpw, ?_, ?_⟩
  · exact hpw.imp (fun h => ne_of_lt h)
  · intro p hp
    have := hgt p hp
    omega

/-- Witness of C8: five allocations starting from the concrete table. -/
theorem allocpid_strictly_increasing_witness :
    (1 ≤ demo.nextpid ∧ demo.nextpid + (5 : Nat) < 2 ^ 31) ∧
    (allocpids 5 demo).length = 5 ∧
    (allocpids 5 demo).Pairwise (fun a b => a < b) ∧
    (allocpids 5 demo).Nodup ∧
    ∀ p ∈ allocpids 5 demo, 0 < p :=
  ⟨⟨by decide, by decide⟩, allocpid_strictly_increasing demo 5 (by decide) (by decide)⟩

/-! ### signal -/

/-- C9: `signal(signum, handler)` with `signum < 0` or `signum ≥ SIG_SIZE` (so for
`-1` and for `SIG_SIZE`) returns the sentinel `(sighandler_t)-2` and leaves the
caller's slot as it was; for a valid signum it returns the handler stored at
`signum`, stores `handler` there and leaves every other entry of the table, and
every other field of the slot, unchanged. -/
theorem signal_contract (C : Config) (p : proc) (signum : Int) (handler : Nat) :
    toUint (-2) = 4294967294 ∧
    (signum < 0 ∨ signum ≥ C.SIG_SIZE → signal C p signum handler = (toUint (-2), p)) ∧
    signal C p (-1) handler = (toUint (-2), p) ∧
    signal C p C.SIG_SIZE handler = (toUint (-2), p) ∧
    (0 ≤ signum → signum < C.SIG_SIZE → p.signal_handlers.length = C.SIG_SIZE →
      p.signal_handlers[signum.toNat]? = some (signal C p signum handler).1 ∧
      (signal C p signum handler).2.signal_handlers[signum.toNat]? = some handler ∧
      (∀ j, j ≠ signum.toNat →
        (signal C p signum handler).2.signal_handlers[j]? = p.signal_handlers[j]?) ∧
      (signal C p signum handler).2 =
        { p with signal_handlers := (signal C p signum handler).2.signal_handlers }) := by
  refine ⟨by decide, ?_, ?_, ?_, ?_⟩
  · intro h
    simp [signal, h]
  · simp [signal]
  · simp [signal]
  · intro h0 h1 hlen
    have hguard : ¬ (signum < 0 ∨ signum ≥ (C.SIG_SIZE : Int)) := by omega
    have hlt : signum.toNat < p.signal_handlers.length := by omega
    simp only [signal, hguard, if_false]
    refine ⟨?_, ?_, ?_, trivial⟩
    · simp [List.getD, List.getElem?_eq_getElem hlt]
    · exact List.getElem?_set_self hlt
    · intro j hj
      exact List.getElem?_set_ne (Ne.symm hj)

/-- Witness of C9: the caller of the concrete table replaces its handler for
signal 5. -/
theorem signal_contract_witness :
    ((0 : Int) ≤ 5 ∧ (5 : Int) < cfg.SIG_SIZE ∧
      demo_caller.signal_handlers.length = cfg.SIG_SIZE) ∧
    (signal cfg demo_caller 5 8192).1 = 4096 ∧
    (signal cfg demo_caller 5 8192).2.signal_handlers[5]? = some 8192 := by
  obtain ⟨_, _, _, _, h⟩ := signal_contract cfg demo_caller 5 8192
  obtain ⟨hold, hnew, _, _⟩ := h (by decide) (by decide) (by decide)
  refine ⟨⟨by decide, by decide, by decide⟩, ?_, hnew⟩
  have h5 : demo_caller.signal_handlers[(5 : Int).toNat]? = some 4096 := by decide
  rw [h5] at hold
  exact (Option.some.inj hold).symm

/-! ### kill: absent target, invalid signum -/

theorem kill_scan_none (C : Config) (pid signum : Int) (t : List proc)
    (h : ∀ p ∈ t, p.pid ≠ pid) : kill_scan C pid signum t = none := by
  induction t with
  | nil => rfl
  | cons a ps ih =>
    have ha : a.pid ≠ pid := h a (List.mem_cons_self _ _)
    have hps : ∀ p ∈ ps, p.pid ≠ pid := fun p hp => h p (List.mem_cons_of_mem _ hp)
    simp [kill_scan, ha, ih hps]

/-- C12 (counterexample): in the concrete table no slot in use has pid 0, yet
`kill(0, 9)` returns 0 and sets bit 9 in the `pending_signals` of the free slot 5
(8 before, 520 after). -/
theorem kill_pid_zero_hits_free_slot :
    (∀ p ∈ demo.ptable, p.state ≠ UNUSED → p.pid ≠ 0) ∧
    (0 : Int) ≤ 9 ∧ (9 : Int) < cfg.SIG_SIZE ∧
    (kill cfg demo 0 9).1 = 0 ∧ (kill cfg demo 0 9).1 ≠ -1 ∧
    (slot cfg demo.ptable 5).pending_signals = 8 ∧
    (slot cfg (kill cfg demo 0 9).2.ptable 5).pending_signals = 520 := by
  decide

/-- C12 (amended): for a valid signum and a pid that no slot of the table holds in
its `pid` field, free slots included, `kill(pid, signum)` returns -1 and leaves the
table and the other globals unchanged. -/
theorem kill_absent_pid (C : Config) (k : Kernel) (pid signum : Int)
    (h0 : 0 ≤ signum) (h1 : signum < C.SIG_SIZE) (hpid : ∀ p ∈ k.ptable, p.pid ≠ pid) :
    kill C k pid signum = (-1, k) := by
  have hguard : ¬ (signum < 0 ∨ signum ≥ (C.SIG_SIZE : Int)) := by omega
  simp only [kill, hguard, if_false, kill_scan_none C pid signum k.ptable hpid]

/-- Witness of C12 (amended): no slot of the concrete table holds pid 42. -/
theorem kill_absent_pid_witness :
    ((0 : Int) ≤ 9 ∧ (9 : Int) < cfg.SIG_SIZE ∧ ∀ p ∈ demo.ptable, p.pid ≠ 42) ∧
    kill cfg demo 42 9 = (-1, demo) :=
  ⟨⟨by decide, by decide, by decide⟩,
    kill_absent_pid cfg demo 42 9 (by decide) (by decide) (by decide)⟩

/-- C13: for every table and pid, `kill(pid, signum)` with `signum < 0` or
`signum ≥ SIG_SIZE` returns -1 and leaves the table and the other globals
unchanged. -/
theorem kill_invalid_signum (C : Config) (k : Kernel) (pid signum : Int)
    (h : signum < 0 ∨ signum ≥ C.SIG_SIZE) : kill C k pid signum = (-1, k) := by
  simp [kill, h]

/-- Witness of C13: signum 32 sent to the live pid 3 of the concrete table. -/
theorem kill_invalid_signum_witness :
    ((32 : Int) < 0 ∨ (32 : Int) ≥ cfg.SIG_SIZE) ∧ (∃ p ∈ demo.ptable, p.pid = 3) ∧
    kill cfg demo 3 32 = (-1, demo) :=
  ⟨by decide, by decide, kill_invalid_signum cfg demo 3 32 (by decide)⟩

/-! ### wait: killed caller -/

theorem wait_scan_none (cur : Nat) (t : List proc)
    (h : ∀ p ∈ t, ¬ (p.parent = Ptr.slot cur ∧ p.state = ZOMBIE)) :
    (wait_scan cur t).1 = none := by
  induction t with
  | nil => rfl
  | cons a ps ih =>
    have hps := ih (fun p hp => h p (List.mem_cons_of_mem _ hp))
    have ha := h a (List.mem_cons_self _ _)
    by_cases hpa : a.parent = Ptr.slot cur
    · have hz : a.state ≠ ZOMBIE := fun hz => ha ⟨hpa, hz⟩
      simp [wait_scan, hpa, hz, hps]
    · simp [wait_scan, hpa, hps]

/-- C14 (counterexample): in the concrete table with the caller's `killed` flag
set, one pass of `wait()` by the caller in slot 1 returns pid 4, not -1, and the
zombie in slot 2 becomes `UNUSED`. -/
theorem wait_killed_still_reaps :
    (slot cfg demo_killed.ptable 1).killed ≠ 0 ∧
    (slot cfg demo_killed.ptable 2).state = ZOMBIE ∧
    ∃ k', wait cfg demo_killed 1 = wait_result.ret 4 k' ∧
      (slot cfg k'.ptable 2).state = UNUSED :=
  ⟨by decide, by decide, _, rfl, by decide⟩

/-- C14 (amended): when the caller's `killed` flag is set and the caller has no
child in `ZOMBIE`, one pass of `wait()` returns -1 without sleeping and leaves the
table and the other globals unchanged. -/
theorem wait_killed_without_zombie (C : Config) (k : Kernel) (cur : Nat)
    (hk : (slot C k.ptable cur).killed ≠ 0)
    (hz : ∀ p ∈ k.ptable, ¬ (p.parent = Ptr.slot cur ∧ p.state = ZOMBIE)) :
    wait C k cur = wait_result.ret (-1) k := by
  have hs := wait_scan_none cur k.ptable hz
  unfold wait
  split
  · rename_i r b heq
    rw [heq] at hs
    cases hs
  · simp [hk]


/-- Witness of C14 (amended): a killed caller in slot 0 whose only child, in slot
1, is still runnable. -/
theorem wait_killed_without_zombie_witness :
    ((slot cfg [{ demo_caller with killed := 1 }, live cfg 4 RUNNABLE (Ptr.slot 0)] 0).killed ≠ 0 ∧
      ∀ p ∈ [{ demo_caller with killed := 1 }, live cfg 4 RUNNABLE (Ptr.slot 0)],
        ¬ (p.parent = Ptr.slot 0 ∧ p.state = ZOMBIE)) ∧
    wait cfg ⟨[{ demo_caller with killed := 1 }, live cfg 4 RUNNABLE (Ptr.slot 0)], Ptr.null, 5⟩ 0 =
      wait_result.ret (-1)
        ⟨[{ demo_caller with killed := 1 }, live cfg 4 RUNNABLE (Ptr.slot 0)], Ptr.null, 5⟩ :=
  ⟨⟨by decide, by decide⟩,
    wait_killed_without_zombie cfg
      ⟨[{ demo_caller with killed := 1 }, live cfg 4 RUNNABLE (Ptr.slot 0)], Ptr.null, 5⟩ 0
      (by decide) (by decide)⟩

/-! ### allocproc on a full table -/

theorem find_unused_none (t : List proc) (h : ∀ p ∈ t, p.state ≠ UNUSED) :
    find_unused t = none := by
  induction t with
  | nil => rfl
  | cons a ps ih =>
    have ha : a.state ≠ UNUSED := h a (List.mem_cons_self _ _)
    simp [find_unused, ha, ih (fun p hp => h p (List.mem_cons_of_mem _ hp))]

/-- C15: when no slot of the table is `UNUSED`, `allocproc()` returns 0 and leaves
the table, `initproc` and `nextpid` unchanged, whatever `kalloc` would return; and
`fork()` returns -1, also leaving everything unchanged. -/
theorem allocproc_full_table (C : Config) (k : Kernel) (cur : Nat) (x : Collab)
    (h : ∀ p ∈ k.ptable, p.state ≠ UNUSED) :
    allocproc C k x.kalloc x.fresh = (none, k) ∧ fork C k cur x = .ok (-1, k) := by
  have ha : allocproc C k x.kalloc x.fresh = (none, k) := by
    simp only [allocproc, find_unused_none k.ptable h]
  exact ⟨ha, by simp only [fork, ha]⟩

/-- Witness of C15: the concrete table with its free slot taken. -/
theorem allocproc_full_table_witness :
    (∀ p ∈ demo_full.ptable, p.state ≠ UNUSED) ∧
    allocproc cfg demo_full demo_collab.kalloc demo_collab.fresh = (none, demo_full) ∧
    fork cfg demo_full 1 demo_collab = .ok (-1, demo_full) :=
  ⟨by decide, allocproc_full_table cfg demo_full 1 demo_collab (by decide)⟩

/-! ### sigprocmask -/

/-- C16: `sigprocmask(z)` returns the mask in force before the call and changes
only `signal_mask`; after `y = sigprocmask(z); sigprocmask(y)` the slot is what it
was before the two calls, so a caller whose mask was set to `x` by `sigprocmask(x)`
has mask `x` again. -/
theorem sigprocmask_round_trip (p : proc) (x z : Nat) :
    (sigprocmask p z).1 = p.signal_mask ∧
    (sigprocmask p z).2 = { p with signal_mask := z } ∧
    (sigprocmask (sigprocmask p z).2 (sigprocmask p z).1).1 = z ∧
    (sigprocmask (sigprocmask p z).2 (sigprocmask p z).1).2 = p ∧
    (sigprocmask (sigprocmask (sigprocmask p x).2 z).2
      (sigprocmask (sigprocmask p x).2 z).1).2.signal_mask = x :=
  ⟨rfl, rfl, rfl, rfl, rfl⟩


/-! ### handle_signals: the delivery pass -/

theorem two_pow_and_eq_iff (i m : Nat) : (2 ^ i &&& m = 2 ^ i) ↔ m.testBit i = true := by
  constructor
  · intro h
    have h1 := congrArg (fun x => Nat.testBit x i) h
    simpa [Nat.testBit_two_pow_self] using h1
  · intro h
    apply Nat.eq_of_testBit_eq
    intro j
    rw [Nat.testBit_and, Nat.testBit_two_pow]
    by_cases hij : i = j
    · subst hij
      simp [h]
    · simp [hij]

theorem shl32_one_nat (i : Nat) (h : i < 32) : shl32 1 (i : Int) = 2 ^ i := by
  have := shl32_one (i : Int) (by omega) (by omega)
  simpa using this

theorem is_masked_eq (mask i : Nat) (h : i < 32) : is_masked mask (i : Int) = mask.testBit i := by
  unfold is_masked
  rw [shl32_one_nat i h]
  by_cases hb : mask.testBit i = true
  · simp [hb, (two_pow_and_eq_iff i mask).mpr hb]
  · have hne : ¬ (2 ^ i &&& mask = 2 ^ i) := fun hc => hb ((two_pow_and_eq_iff i mask).mp hc)
    simp only [Bool.not_eq_true] at hb
    simp [hb, hne]

theorem is_signal_pending_eq (pending i : Nat) (h : i < 32) :
    is_signal_pending pending (i : Int) = pending.testBit i :=
  is_masked_eq pending i h

theorem clear_bit_testBit (q i j : Nat) (hj : j < 32) :
    (q &&& (4294967295 ^^^ 2 ^ i)).testBit j = (q.testBit j && !decide (i = j)) := by
  have h : (4294967295 : Nat) = 2 ^ 32 - 1 := by norm_num
  rw [Nat.testBit_and, Nat.testBit_xor, h, Nat.testBit_two_pow_sub_one, Nat.testBit_two_pow]
  simp [hj]

theorem handler_at_congr (p q : proc) (i : Int) (h : q.signal_handlers = p.signal_handlers) :
    handler_at q i = handler_at p i := by
  simp [handler_at, h]

/-- One step of the source loop on a slot with a default or ignored disposition
is the step of the specification. -/
theorem deliver_loop_defaults (C : Config) (A : AddrSpace) (p : proc) (m : UMem) (n : Nat) :
    ∀ (i : Nat) (q : proc), i + n ≤ 32 →
      (∀ j, i ≤ j → j < i + n → handler_at p j = SIG_DFL ∨ handler_at p j = SIG_IGN) →
      q.signal_mask = p.signal_mask → q.signal_handlers = p.signal_handlers →
      (∀ j, i ≤ j → j < 32 → q.pending_signals.testBit j = p.pending_signals.testBit j) →
      deliver_loop C A n i q m [] =
        .ok ((List.range' i n).foldl (default_delivery C p) q, m, []) := by
  induction n with
  | zero => intro i q _ _ _ _ _; rfl
  | succ n ih =>
    intro i q hle hd hm hh hp
    have hi : i < 32 := by omega
    have hha : handler_at q (i : Int) = handler_at p (i : Int) := handler_at_congr p q _ hh
    have hmask : is_masked q.signal_mask (i : Int) = p.signal_mask.testBit i := by
      rw [hm]; exact is_masked_eq _ i hi
    have hpend : is_signal_pending q.pending_signals (i : Int) = p.pending_signals.testBit i := by
      rw [is_signal_pending_eq _ i hi]; exact hp i (le_refl i) hi
    have hrange : List.range' i (n + 1) = i :: List.range' (i + 1) n := rfl
    rw [hrange, List.foldl_cons]
    simp only [deliver_loop, hha, hmask, hpend]
    by_cases hskip : handler_at p (i : Int) = SIG_IGN ∨ p.signal_mask.testBit i = true ∨
        p.pending_signals.testBit i = false
    · have hdd : default_delivery C p q i = q := by
        unfold default_delivery
        rw [if_neg]
        rintro ⟨h1, h2, h3⟩
        rcases hskip with h | h | h
        · exact h3 h
        · rw [h2] at h; cases h
        · rw [h1] at h; cases h
      rw [if_pos hskip, hdd]
      exact ih (i + 1) q (by omega) (fun j h1 h2 => hd j (by omega) (by omega)) hm hh
        (fun j h1 h2 => hp j (by omega) h2)
    · rw [if_neg hskip]
      have hign : handler_at p (i : Int) ≠ SIG_IGN := fun h => hskip (Or.inl h)
      have hdfl : handler_at p (i : Int) = SIG_DFL := by
        rcases hd i (le_refl i) (by omega) with h | h
        · exact h
        · exact absurd h hign
      have hcond : p.pending_signals.testBit i = true ∧ p.signal_mask.testBit i = false ∧
          handler_at p (i : Int) ≠ SIG_IGN := by
        refine ⟨?_, ?_, hign⟩
        · by_contra hc
          exact hskip (Or.inr (Or.inr (by simpa using hc)))
        · by_contra hc
          exact hskip (Or.inr (Or.inl (by simpa using hc)))
      have hdd : default_delivery C p q i =
          { handle_kernel_signal C q (i : Int) with
            pending_signals := (handle_kernel_signal C q (i : Int)).pending_signals &&&
              (4294967295 ^^^ shl32 1 (i : Int)) } := by
        unfold default_delivery handle_kernel_signal
        rw [if_pos hcond, shl32_one_nat i hi]
        split
        · rfl
        · split <;> rfl
      rw [if_pos hdfl, hdd]
      apply ih (i + 1) _ (by omega) (fun j h1 h2 => hd j (by omega) (by omega))
      · unfold handle_kernel_signal
        split
        · exact hm
        · split <;> exact hm
      · unfold handle_kernel_signal
        split
        · exact hh
        · split <;> exact hh
      · intro j h1 h2
        have hq : (handle_kernel_signal C q (i : Int)).pending_signals = q.pending_signals := by
          unfold handle_kernel_signal
          split
          · rfl
          · split <;> rfl
        simp only [hq, shl32_one_nat i hi]
        rw [clear_bit_testBit _ _ _ h2, hp j (by omega) h2]
        have : i ≠ j := by omega
        simp [this]

theorem default_delivery_pending (C : Config) (p q : proc) (i : Nat) :
    (default_delivery C p q i).pending_signals =
      if p.pending_signals.testBit i = true ∧ p.signal_mask.testBit i = false ∧
          handler_at p i ≠ SIG_IGN then
        q.pending_signals &&& (4294967295 ^^^ 2 ^ i)
      else q.pending_signals := by
  unfold default_delivery
  split
  · split
    · rfl
    · split <;> rfl
  · rfl

theorem fold_default_delivery_pending (C : Config) (p : proc) (n : Nat) :
    ∀ (i : Nat) (q : proc) (j : Nat), j < 32 →
      ((List.range' i n).foldl (default_delivery C p) q).pending_signals.testBit j =
        (q.pending_signals.testBit j &&
          !(decide (i ≤ j ∧ j < i + n) &&
            (p.pending_signals.testBit j && !p.signal_mask.testBit j &&
              decide (handler_at p j ≠ SIG_IGN)))) := by
  induction n with
  | zero =>
    intro i q j _
    have h0 : ¬ (i ≤ j ∧ j < i + 0) := by omega
    simp only [List.range'_zero, List.foldl_nil, h0, decide_False, Bool.false_and,
      Bool.not_false, Bool.and_true]
  | succ n ih =>
    intro i q j hj
    have hrange : List.range' i (n + 1) = i :: List.range' (i + 1) n := rfl
    rw [hrange, List.foldl_cons, ih (i + 1) _ j hj, default_delivery_pending]
    by_cases hij : i = j
    · subst hij
      have h1 : ¬ (i + 1 ≤ i ∧ i < i + 1 + n) := by omega
      have h2 : i ≤ i ∧ i < i + (n + 1) := by omega
      simp only [h1, h2, decide_True, decide_False, Bool.false_and, Bool.not_false,
        Bool.and_true, Bool.true_and]
      split
      · rename_i hc
        rw [clear_bit_testBit _ _ _ hj]
        simp [hc.1, hc.2.1, hc.2.2]
      · rename_i hc
        by_cases ha : p.pending_signals.testBit i = true
        · by_cases hb : p.signal_mask.testBit i = false
          · have hg : handler_at p (i : Int) = SIG_IGN := by
              by_contra hg
              exact hc ⟨ha, hb, hg⟩
            simp [hg]
          · simp only [Bool.not_eq_false] at hb
            simp [hb]
        · simp only [Bool.not_eq_true] at ha
          simp [ha]
    · have hiff : (i + 1 ≤ j ∧ j < i + 1 + n) ↔ (i ≤ j ∧ j < i + (n + 1)) := by omega
      have hsame : ∀ x : Nat, (if p.pending_signals.testBit i = true ∧
          p.signal_mask.testBit i = false ∧ handler_at p (i : Int) ≠ SIG_IGN then
            x &&& (4294967295 ^^^ 2 ^ i) else x).testBit j = x.testBit j := by
        intro x
        split
        · rw [clear_bit_testBit _ _ _ hj]
          simp [hij]
        · rfl
      rw [hsame, decide_eq_decide.mpr hiff]

/-- C11: for a process whose dispositions below `SIG_SIZE ≤ 32` are all `SIG_DFL`
or `SIG_IGN`, the `for` loop of `handle_signals` is, signum by signum in ascending
order, the delivery of the specification: a signum that is pending, not masked and
not ignored gets the kernel default (`SIGSTOP` sets `sig_stopped`, `SIGCONT` clears
it, any other sets `killed`) and its pending bit cleared, any other signum changes
nothing. The loop completes in every address space, no user handler is staged, the
user memory is untouched, and afterwards bit `i` is pending exactly when it was
pending and `i` is masked or ignored. -/
theorem deliver_pass_defaults (C : Config) (A : AddrSpace) (p : proc) (m : UMem)
    (h32 : C.SIG_SIZE ≤ 32)
    (hd : ∀ i, i < C.SIG_SIZE → handler_at p i = SIG_DFL ∨ handler_at p i = SIG_IGN) :
    deliver_loop C A C.SIG_SIZE 0 p m [] =
      .ok ((List.range C.SIG_SIZE).foldl (default_delivery C p) p, m, []) ∧
    ∀ r, deliver_loop C A C.SIG_SIZE 0 p m [] = .ok r → ∀ i, i < C.SIG_SIZE →
      r.1.pending_signals.testBit i =
        (p.pending_signals.testBit i &&
          (p.signal_mask.testBit i || decide (handler_at p i = SIG_IGN))) := by
  have hloop := deliver_loop_defaults C A p m C.SIG_SIZE 0 p (by omega)
    (fun j _ h2 => hd j (by omega)) rfl rfl (fun _ _ _ => rfl)
  rw [← List.range_eq_range'] at hloop
  refine ⟨hloop, ?_⟩
  intro r hr i hi
  rw [hloop] at hr
  simp only [Except.ok.injEq] at hr
  subst hr
  dsimp only
  rw [List.range_eq_range', fold_default_delivery_pending C p C.SIG_SIZE 0 p i (by omega)]
  have hr : 0 ≤ i ∧ i < 0 + C.SIG_SIZE := by omega
  simp only [hr, decide_True, Bool.true_and]
  cases p.pending_signals.testBit i <;> cases p.signal_mask.testBit i <;>
    by_cases hg : handler_at p (i : Int) = SIG_IGN <;> simp [hg]

/-- Witness of C11 on a concrete slot: signals 9 and 17 are delivered (`killed` and
`sig_stopped` set), the masked signal 5 and the ignored signal 3 stay pending. -/
theorem deliver_pass_defaults_witness :
    (cfg.SIG_SIZE ≤ 32 ∧
      ∀ i, i < cfg.SIG_SIZE →
        handler_at demo_signalled i = SIG_DFL ∨ handler_at demo_signalled i = SIG_IGN) ∧
    ∃ r, deliver_loop cfg demo_space cfg.SIG_SIZE 0 demo_signalled (fun _ => 0) [] = .ok r ∧
      r.1 = (List.range cfg.SIG_SIZE).foldl (default_delivery cfg demo_signalled)
        demo_signalled ∧
      r.1.killed = 1 ∧ r.1.sig_stopped = 1 ∧ r.1.pending_signals = 40 ∧ r.2.2 = [] := by
  have h := deliver_pass_defaults cfg demo_space demo_signalled (fun _ => 0) (by decide)
    (by decide)
  exact ⟨⟨by decide, by decide⟩, _, h.1, rfl, by decide, by decide, by decide, rfl⟩


/-! ### handle_signals: a stopped process -/

theorem handle_signals_loop_returns_running (C : Config) (A : AddrSpace) (env : Nat → Nat)
    (fuel : Nat) :
    ∀ (k : Nat) (p : proc) (m : UMem) (l : List Nat) (p' : proc) (m' : UMem) (l' : List Nat),
      handle_signals_loop C A env fuel k p m l = .ok (some (p', m'), l') →
      p'.sig_stopped = 0 := by
  induction fuel with
  | zero =>
    intro k p m l p' m' l' h
    simp [handle_signals_loop] at h
  | succ fuel ih =>
    intro k p m l p' m' l' h
    rw [handle_signals_loop] at h
    split at h
    · cases h
    · dsimp only at h
      split at h
      · exact ih _ _ _ _ p' m' l' h
      · rename_i hstop
        simp only [Except.ok.injEq, Prod.mk.injEq, Option.some.injEq] at h
        rw [← h.1.1]
        simpa using hstop

theorem pending_or_env (x e n : Nat) (hn : n < 32)
    (hx : is_signal_pending x (n : Int) = false) (he : is_signal_pending e (n : Int) = false) :
    is_signal_pending ((x ||| e) % 2 ^ 32) (n : Int) = false := by
  rw [is_signal_pending_eq _ n hn] at hx he ⊢
  rw [Nat.testBit_mod_two_pow, Nat.testBit_or, hx, he]
  simp

theorem handle_signals_body_stopped (C : Config) (A : AddrSpace) (p : proc) (m : UMem)
    (hs : p.sig_stopped ≠ 0) (hp : is_signal_pending p.pending_signals C.SIGCONT = false) :
    handle_signals_body C A p m = .ok (true, p, m, []) := by
  unfold handle_signals_body
  rw [if_pos ⟨hs, hp⟩]

theorem handle_signals_loop_stays_stopped (C : Config) (A : AddrSpace) (env : Nat → Nat)
    (m : UMem) (n : Nat)
    (hn : n < 32) (hc : C.SIGCONT = (n : Int))
    (henv : ∀ k, is_signal_pending (env k) C.SIGCONT = false) (fuel : Nat) :
    ∀ (k : Nat) (p : proc) (l : List Nat), p.sig_stopped ≠ 0 →
      is_signal_pending p.pending_signals C.SIGCONT = false →
      handle_signals_loop C A env fuel k p m l = .ok (none, l) := by
  induction fuel with
  | zero => intro k p l _ _; rfl
  | succ fuel ih =>
    intro k p l hs hp
    rw [handle_signals_loop, handle_signals_body_stopped C A p m hs hp]
    dsimp only
    rw [if_pos hs, List.append_nil]
    apply ih
    · exact hs
    · dsimp only
      rw [hc]
      apply pending_or_env _ _ n hn
      · rw [← hc]; exact hp
      · rw [← hc]; exact henv k

/-- A result that passes the test for "returned" is a returned result. -/
theorem returned_of_check (g : Except store_stop (Option (proc × UMem) × List Nat))
    (h : (match g with
      | .ok (some _, _) => true
      | _ => false) = true) :
    ∃ r : (proc × UMem) × List Nat, g = .ok (some r.1, r.2) := by
  cases g with
  | error e => cases h
  | ok v =>
    obtain ⟨o, l⟩ := v
    cases o with
    | none => cases h
    | some r => exact ⟨(r, l), rfl⟩

/-- C17: for a process whose `sig_stopped` is set, an iteration of the loop of
`handle_signals` in which `SIGCONT` is not pending only calls `yield` and leaves
the whole slot and the user memory as they are, staging nothing; a call on a
user-mode trap frame that returns leaves `sig_stopped` clear; and as long as
neither the slot nor the other CPUs bring a pending `SIGCONT`, the call is still
looping after any number of iterations. All three hold in every address space. -/
theorem stopped_process_only_yields (C : Config) (A : AddrSpace) (DPL_USER : Nat)
    (env : Nat → Nat) (fuel : Nat) (tf : trapframe) (p : proc) (m : UMem) :
    (p.sig_stopped ≠ 0 → is_signal_pending p.pending_signals C.SIGCONT = false →
      handle_signals_body C A p m = .ok (true, p, m, [])) ∧
    (tf.cs &&& 3 = DPL_USER → ∀ p' m' l,
      handle_signals C A DPL_USER env fuel tf p m = .ok (some (p', m'), l) →
      p'.sig_stopped = 0) ∧
    (tf.cs &&& 3 = DPL_USER → p.sig_stopped ≠ 0 → 0 ≤ C.SIGCONT → C.SIGCONT < 32 →
      is_signal_pending p.pending_signals C.SIGCONT = false →
      (∀ k, is_signal_pending (env k) C.SIGCONT = false) →
      handle_signals C A DPL_USER env fuel tf p m = .ok (none, [])) := by
  refine ⟨?_, ?_, ?_⟩
  · intro hs hp
    exact handle_signals_body_stopped C A p m hs hp
  · intro htf p' m' l h
    unfold handle_signals at h
    rw [if_neg (not_not.mpr htf)] at h
    exact handle_signals_loop_returns_running C A env fuel 0 p m [] p' m' l h
  · intro htf hs h0 h1 hp henv
    unfold handle_signals
    rw [if_neg (not_not.mpr htf)]
    have hc : C.SIGCONT = ((C.SIGCONT.toNat : Nat) : Int) := by omega
    exact handle_signals_loop_stays_stopped C A env m C.SIGCONT.toNat (by omega) hc henv fuel 0 p
      [] hs hp

/-- Witness of C17 on a stopped slot: while no `SIGCONT` arrives the call is still
looping after 10 iterations; when `kill` on another CPU brings `SIGCONT` during
iteration 2, the call returns with `sig_stopped` clear. -/
theorem stopped_process_only_yields_witness :
    (demo_stopped.sig_stopped ≠ 0 ∧
      is_signal_pending demo_stopped.pending_signals cfg.SIGCONT = false ∧
      demo_stopped.tf.cs &&& 3 = 3 ∧ (0 : Int) ≤ cfg.SIGCONT ∧ cfg.SIGCONT < 32) ∧
    handle_signals_body cfg demo_space demo_stopped (fun _ => 0) =
      .ok (true, demo_stopped, fun _ => 0, []) ∧
    handle_signals cfg demo_space 3 (fun _ => 0) 10 demo_stopped.tf demo_stopped (fun _ => 0) =
      .ok (none, []) ∧
    (∃ p' m' l, handle_signals cfg demo_space 3 (fun k => if k = 2 then 524288 else 0) 10
        demo_stopped.tf demo_stopped (fun _ => 0) = .ok (some (p', m'), l) ∧
      p'.sig_stopped = 0) := by
  have h := stopped_process_only_yields cfg demo_space 3 (fun _ => 0) 10 demo_stopped.tf
    demo_stopped (fun _ => 0)
  have h2 := stopped_process_only_yields cfg demo_space 3 (fun k => if k = 2 then 524288 else 0)
    10 demo_stopped.tf demo_stopped (fun _ => 0)
  refine ⟨⟨by decide, by decide, by decide, by decide, by decide⟩,
    h.1 (by decide) (by decide),
    h.2.2 (by decide) (by decide) (by decide) (by decide) (by decide) (fun _ => by decide), ?_⟩
  have hex := returned_of_check (handle_signals cfg demo_space 3
    (fun k => if k = 2 then 524288 else 0) 10 demo_stopped.tf demo_stopped (fun _ => 0))
    (by decide)
  obtain ⟨r, hr⟩ := hex
  exact ⟨r.1.1, r.1.2, r.2, hr, h2.2.1 (by decide) r.1.1 r.1.2 r.2 hr⟩


/-! ### handle_user_signal: where its stores land -/

theorem in_user_not_hits (A : AddrSpace) (a : Nat) (h : in_user A a) :
    ¬ hits_mask A a ∧ ¬ hits_backup A a := by
  unfold in_user at h
  unfold hits_mask hits_backup
  constructor <;> intro hc <;> omega

/-! ### handle_signals: at most one user handler is staged -/

set_option maxRecDepth 1000000 in
/-- C18: after `userinit()` on the boot-time table, with two CPUs in
`scheduler()`, the invariant holds; after the statements of `race_schedule` the
process in slot 0 is `RUNNING` and is the `proc` of both CPUs, so the invariant
fails in a reachable state. -/
theorem two_cpus_on_running_slot :
    one_cpu_per_running_slot boot_sys ∧
    ((run boot_sys race_schedule).ptable[0]?).map proc.state = some RUNNING ∧
    (run boot_sys race_schedule).cpus.map cpu.proc = [Ptr.slot 0, Ptr.slot 0] ∧
    ¬ one_cpu_per_running_slot (run boot_sys race_schedule) := by
  refine ⟨by decide, by decide, by decide, by decide⟩


/-! ### The race of wakeup1 with the scheduler that puts a sleeper to sleep -/

theorem race_inv_wake (chan : Ptr) (pos : position) (q : proc) (h : race_inv pos q.state) :
    race_inv pos
      (if q.chan = chan ∧ q.state = SLEEPING then { q with state := NEG_RUNNABLE } else q).state := by
  by_cases hc : q.chan = chan ∧ q.state = SLEEPING
  · rw [if_pos hc]
    cases pos <;> simp_all [race_inv]
  · rw [if_neg hc]
    exact h

theorem race_step_cpu0 (i : Nat) (chan : Ptr) (len n m : Nat) (s : Sys)
    (h : race_invariant i chan len n m s) :
    race_invariant i chan len (n + 1) m (race_step s 0) := by
  obtain ⟨⟨pr, p, pos⟩, x1, q, hc, hp, hr, hq, hi, hl, hw⟩ := h
  simp only at hp hr hi
  subst hp
  have hlt : p < s.ptable.length := lt_of_get hq
  cases pos <;> simp only [race_inv] at hi
  case leaving =>
    refine ⟨⟨pr, p, .clear⟩, x1, q, ?_, rfl, ?_, ?_, hi, ?_, hw⟩
    · simp [race_step, step, hc]
    · simp only [race_rank] at hr ⊢; omega
    · simpa [race_step, step, hc] using hq
    · simpa [race_step, step, hc] using hl
  case clear =>
    refine ⟨⟨Ptr.null, p, .fin1⟩, x1, q, ?_, rfl, ?_, ?_, hi, ?_, hw⟩
    · simp [race_step, step, hc]
    · simp only [race_rank] at hr ⊢; omega
    · simpa [race_step, step, hc] using hq
    · simpa [race_step, step, hc] using hl
  case fin1 =>
    have hcas := cas_state_hit NEG_SLEEPING SLEEPING hq hi
    refine ⟨⟨pr, p, .fin1w⟩, x1, { q with state := SLEEPING }, ?_, rfl, ?_, ?_, Or.inl rfl, ?_, hw⟩
    · simp [race_step, step, hc, hcas]
    · simp only [race_rank] at hr ⊢; omega
    · simp [race_step, step, hc, hcas, List.getElem?_set_self hlt]
    · simpa [race_step, step, hc, hcas] using hl
  case fin1w =>
    have hupd := upd_of_get (fun r : proc => { r with state := RUNNABLE }) hq
    refine ⟨⟨pr, p, .fin2⟩, x1, { q with state := RUNNABLE }, ?_, rfl, ?_, ?_, rfl, ?_, hw⟩
    · simp [race_step, step, hc]
    · simp only [race_rank] at hr ⊢; omega
    · simp [race_step, step, hc, hupd, List.getElem?_set_self hlt]
    · simpa [race_step, step, hc, hupd] using hl
  case fin2 =>
    have hcas := cas_state_miss NEG_RUNNABLE RUNNABLE hq (by rw [hi]; decide)
    refine ⟨⟨pr, p, .fin3⟩, x1, q, ?_, rfl, ?_, ?_, hi, ?_, hw⟩
    · simp [race_step, step, hc]
    · simp only [race_rank] at hr ⊢; omega
    · simpa [race_step, step, hc, hcas] using hq
    · simpa [race_step, step, hc, hcas] using hl
  case fin3 =>
    have hcas := cas_state_miss NEG_ZOMBIE ZOMBIE hq (by rw [hi]; decide)
    refine ⟨⟨pr, p, .next⟩, x1, q, ?_, rfl, ?_, ?_, hi, ?_, hw⟩
    · simp [race_step, step, hc, hcas]
    · simp only [race_rank] at hr ⊢; omega
    · simpa [race_step, step, hc, hcas] using hq
    · simpa [race_step, step, hc, hcas] using hl
  case next =>
    refine ⟨⟨pr, p, .next⟩, x1, q, ?_, rfl, ?_, ?_, hi, ?_, hw⟩
    · simp [race_step, hc]
    · simp only [race_rank] at hr ⊢; omega
    · simpa [race_step, hc] using hq
    · simpa [race_step, hc] using hl


theorem race_step_cpu1 (i : Nat) (chan : Ptr) (len n m : Nat) (s : Sys)
    (h : race_invariant i chan len n m s) :
    race_invariant i chan len n (m + 1) (race_step s 1) := by
  obtain ⟨x0, ⟨pr, p, pos⟩, q, hc, hp, hr, hq, hi, hl, hw⟩ := h
  simp only at hw
  rcases hw with ⟨hm, rfl⟩ | ⟨hm, rfl⟩
  · by_cases hlt : m < len
    · have hlt' : m < s.ptable.length := by omega
      have hget : (race_step s 1).ptable[i]? =
          if i = m then (s.ptable[i]?).map (fun r : proc =>
            if r.chan = chan ∧ r.state = SLEEPING then { r with state := NEG_RUNNABLE } else r)
          else s.ptable[i]? := by
        simp only [race_step, step, hc, List.getElem?_cons_succ, List.getElem?_cons_zero,
          hlt', if_true, wakeup1_slot]
        simp only [position.waking.injEq, reduceCtorEq, or_self, if_false]
        rw [get_upd]
      have hlen : (race_step s 1).ptable.length = len := by
        simp only [race_step, step, hc, List.getElem?_cons_succ, List.getElem?_cons_zero,
          hlt', if_true, wakeup1_slot]
        simp only [position.waking.injEq, reduceCtorEq, or_self, if_false]
        rw [length_upd]
        exact hl
      have hcpus : (race_step s 1).cpus = [x0, ⟨pr, p, .waking chan (m + 1)⟩] := by
        simp [race_step, step, hc, hlt']
      by_cases him : i = m
      · refine ⟨x0, ⟨pr, p, .waking chan (m + 1)⟩,
          (if q.chan = chan ∧ q.state = SLEEPING then { q with state := NEG_RUNNABLE } else q),
          hcpus, hp, hr, ?_, race_inv_wake chan x0.pos q hi, hlen, Or.inl ⟨by omega, rfl⟩⟩
        rw [hget, if_pos him, hq]
        rfl
      · refine ⟨x0, ⟨pr, p, .waking chan (m + 1)⟩, q, hcpus, hp, hr, ?_, hi, hlen,
          Or.inl ⟨by omega, rfl⟩⟩
        rw [hget, if_neg him, hq]
    · have hlt' : ¬ m < s.ptable.length := by omega
      refine ⟨x0, ⟨pr, p, .user⟩, q, ?_, hp, hr, ?_, hi, ?_, Or.inr ⟨by omega, rfl⟩⟩
      · simp [race_step, step, hc, hlt']
      · simpa [race_step, step, hc, hlt'] using hq
      · simpa [race_step, step, hc, hlt'] using hl
  · refine ⟨x0, ⟨pr, p, .user⟩, q, ?_, hp, hr, ?_, hi, ?_, Or.inr ⟨by omega, rfl⟩⟩
    · simp [race_step, hc]
    · simpa [race_step, hc] using hq
    · simpa [race_step, hc] using hl

theorem race_step_other (i : Nat) (chan : Ptr) (len n m : Nat) (s : Sys) (c : Nat)
    (h : race_invariant i chan len n m s) (hc0 : c ≠ 0) (hc1 : c ≠ 1) :
    race_step s c = s := by
  obtain ⟨x0, x1, q, hc, _⟩ := h
  have hnone : s.cpus[c]? = none := by
    rw [hc]
    apply List.getElem?_eq_none
    simp only [List.length_cons, List.length_nil]
    omega
  simp [race_step, hnone]

theorem race_invariant_run (i : Nat) (chan : Ptr) (len : Nat) (sched : List Nat) :
    ∀ (n m : Nat) (s : Sys), race_invariant i chan len n m s →
      race_invariant i chan len (n + sched.count 0) (m + sched.count 1) (race s sched) := by
  induction sched with
  | nil => intro n m s h; simpa [race] using h
  | cons c rest ih =>
    intro n m s h
    simp only [race]
    by_cases h0 : c = 0
    · subst h0
      have := ih (n + 1) m _ (race_step_cpu0 i chan len n m s h)
      simpa [List.count_cons, Nat.add_assoc, Nat.add_comm 1] using this
    · by_cases h1 : c = 1
      · subst h1
        have := ih n (m + 1) _ (race_step_cpu1 i chan len n m s h)
        simpa [List.count_cons, Nat.add_assoc, Nat.add_comm 1] using this
      · rw [race_step_other i chan len n m s c h h0 h1]
        have := ih n m s h
        have e0 : (c == 0) = false := by simpa using h0
        have e1 : (c == 1) = false := by simpa using h1
        simpa [List.count_cons, e0, e1] using this

/-- C19: let the sleeper in slot `i` have performed its CAS to `NEG_SLEEPING`, with
its CPU still to run the finalization of `scheduler()`, and let another CPU run
`wakeup1(chan)` from its first slot. Under every schedule of the two CPUs: once
the sleeper's CPU has executed four statements (through line 400) the sleeper is
`RUNNABLE` and stays so; the sleeper is `SLEEPING` only while its CPU stands
between the CAS of line 399 and the write of line 400; and each CPU finishes its
part after a bounded number of its own statements. -/
theorem no_lost_wakeup (t : List proc) (i w : Nat) (chan : Ptr) (q : proc) (sched : List Nat)
    (hq : t[i]? = some q) (hs : q.state = NEG_SLEEPING) :
    (4 ≤ sched.count 0 →
      ((race (race_start t i w chan) sched).ptable[i]?).map proc.state = some RUNNABLE) ∧
    (((race (race_start t i w chan) sched).ptable[i]?).map proc.state = some SLEEPING →
      ((race (race_start t i w chan) sched).cpus[0]?).map cpu.pos = some .fin1w) ∧
    (6 ≤ sched.count 0 →
      ((race (race_start t i w chan) sched).cpus[0]?).map cpu.pos = some .next) ∧
    (t.length + 1 ≤ sched.count 1 →
      ((race (race_start t i w chan) sched).cpus[1]?).map cpu.pos = some .user) := by
  have h0 : race_invariant i chan t.length 0 0 (race_start t i w chan) :=
    ⟨_, _, q, rfl, rfl, rfl, hq, hs, rfl, Or.inl ⟨Nat.zero_le _, rfl⟩⟩
  have h := race_invariant_run i chan t.length sched 0 0 _ h0
  simp only [Nat.zero_add] at h
  obtain ⟨⟨pr, p, pos⟩, x1, q', hc, hp, hr, hq', hi, hl, hw⟩ := h
  simp only at hp hr hi
  refine ⟨?_, ?_, ?_, ?_⟩
  · intro h4
    rw [hq']
    cases pos <;> simp only [race_inv, race_rank] at hi hr <;>
      first
        | exact absurd hi id
        | (exfalso; omega)
        | simp [hi]
  · intro hsl
    rw [hq'] at hsl
    simp only [Option.map_some', Option.some.injEq] at hsl
    rw [hc]
    cases pos <;> simp only [race_inv] at hi <;>
      first
        | exact absurd hi id
        | rfl
        | (rw [hsl] at hi; cases hi)
  · intro h6
    rw [hc]
    cases pos <;> simp only [race_inv, race_rank] at hi hr <;>
      first
        | exact absurd hi id
        | rfl
        | (exfalso; omega)
  · intro hw1
    rw [hc]
    rcases hw with ⟨hm, _⟩ | ⟨_, hu⟩
    · exfalso; omega
    · simp [hu]


/-- Witness of C19: a schedule in which `wakeup1` reaches the sleeper between the
CAS of line 399 and the write of line 400; the sleeper ends `RUNNABLE`. -/
theorem no_lost_wakeup_witness :
    (demo_sleeper_table[0]? = some { live cfg 3 NEG_SLEEPING Ptr.null with chan := Ptr.addr 1 } ∧
      ({ live cfg 3 NEG_SLEEPING Ptr.null with chan := Ptr.addr 1 } : proc).state = NEG_SLEEPING) ∧
    ((race (race_start demo_sleeper_table 0 1 (Ptr.addr 1)) [0, 0, 0, 1]).ptable[0]?).map
      proc.state = some NEG_RUNNABLE ∧
    ((race (race_start demo_sleeper_table 0 1 (Ptr.addr 1)) [0, 0, 0, 1, 0, 1, 0, 0, 1]).ptable[0]?).map
      proc.state = some RUNNABLE :=
  ⟨⟨rfl, rfl⟩, by decide,
    (no_lost_wakeup demo_sleeper_table 0 1 (Ptr.addr 1) _ [0, 0, 0, 1, 0, 1, 0, 0, 1] rfl rfl).1
      (by decide)⟩


end XV6
